import Mathlib

/-!
Verification of the biscuit RISC-V runtime assembler.

The repository ships the public header `include/biscuit/assembler.hpp`
(declarations of every mnemonic, the CSR/FenceOrder/Ordering/RMode enums and
the private format packers) together with the Zicsr and RVA test suites.
The bodies of the emit functions, the `CodeBuffer` and the `Label` live in
translation units that are not part of the source tree, so the operational
definitions below are modelled from the specification (bit layouts of the
R/I/S/B/U/J formats, the fixup protocol, the CodeBuffer operations), under
the exact names and signatures declared in the header, and are validated
against the concrete instruction words demanded by the checked-in tests.
-/

namespace Biscuit

/-! ### Byte memory

`CodeBuffer` is a cursor over a raw little-endian byte region.  Memory is
modelled as a total map from byte offsets to byte values. -/

/-- Modelled from the spec: write two bytes little-endian at `off`. -/
def writeWord16 (m : Nat → Nat) (off w : Nat) : Nat → Nat :=
  fun i =>
    if i = off then w % 256
    else if i = off + 1 then w / 256 % 256
    else m i

/-- Modelled from the spec: write four bytes little-endian at `off`. -/
def writeWord32 (m : Nat → Nat) (off w : Nat) : Nat → Nat :=
  fun i =>
    if i = off then w % 256
    else if i = off + 1 then w / 0x100 % 256
    else if i = off + 2 then w / 0x10000 % 256
    else if i = off + 3 then w / 0x1000000 % 256
    else m i

/-- Read a 16-bit little-endian word at `off`. -/
def readWord16 (m : Nat → Nat) (off : Nat) : Nat :=
  m off % 256 + m (off + 1) % 256 * 0x100

/-- Read a 32-bit little-endian word at `off`. -/
def readWord32 (m : Nat → Nat) (off : Nat) : Nat :=
  m off % 256 + m (off + 1) % 256 * 0x100 + m (off + 2) % 256 * 0x10000 +
    m (off + 3) % 256 * 0x1000000

/-! ### CodeBuffer -/

/-- Modelled from the spec: the code buffer is a byte region with a write
cursor and a fixed capacity; `mem` is the backing byte region. -/
structure CodeBuffer where
  mem : Nat → Nat
  cursor : Nat
  capacity : Nat

/-- Modelled from the spec: `Emit32` writes four bytes little-endian at the
cursor and advances the cursor by 4; it fails when `cursor + 4 > capacity`. -/
def emit32 (b : CodeBuffer) (w : Nat) : Option CodeBuffer :=
  if b.cursor + 4 ≤ b.capacity then
    some ⟨writeWord32 b.mem b.cursor w, b.cursor + 4, b.capacity⟩
  else none

/-- Modelled from the spec: `Emit16` writes two bytes little-endian at the
cursor and advances the cursor by 2; it fails when `cursor + 2 > capacity`. -/
def emit16 (b : CodeBuffer) (w : Nat) : Option CodeBuffer :=
  if b.cursor + 2 ≤ b.capacity then
    some ⟨writeWord16 b.mem b.cursor w, b.cursor + 2, b.capacity⟩
  else none

/-- Modelled from the spec: `OverwriteAt` with a 32-bit word patches in place
without moving the cursor. -/
def overwriteAt32 (b : CodeBuffer) (off w : Nat) : CodeBuffer :=
  ⟨writeWord32 b.mem off w, b.cursor, b.capacity⟩

/-- Modelled from the spec: `OverwriteAt` with a 16-bit word patches in place
without moving the cursor. -/
def overwriteAt16 (b : CodeBuffer) (off w : Nat) : CodeBuffer :=
  ⟨writeWord16 b.mem off w, b.cursor, b.capacity⟩

/-- Modelled from the spec: `RewindCursor` moves the cursor to any offset in
`[0, cursor]`; a larger offset is an `InvalidRewind` error. -/
def rewindCursor (b : CodeBuffer) (off : Nat) : Option CodeBuffer :=
  if off ≤ b.cursor then some ⟨b.mem, off, b.capacity⟩ else none

/-! ### Registers and enums (from `assembler.hpp`) -/

/-- General-purpose register: a small fixed-range integer identifier 0–31. -/
abbrev GPR := Fin 32

/-- Floating-point register: a small fixed-range integer identifier 0–31. -/
abbrev FPR := Fin 32

def x0 : GPR := 0
def x1 : GPR := 1
def x2 : GPR := 2
def x15 : GPR := 15
def x31 : GPR := 31

/-- Atomic memory ordering, from the `Ordering` enum of `assembler.hpp`:
`None = 0`, `RL = 1`, `AQ = 2`, `AQRL = AQ | RL = 3`. -/
inductive MemOrdering where
  | none
  | rl
  | aq
  | aqrl

/-- The numeric value of the `Ordering` enumerator (the aq/rl bit pair). -/
def MemOrdering.val : MemOrdering → Nat
  | .none => 0
  | .rl => 1
  | .aq => 2
  | .aqrl => 3

/-- CSR addresses are 12-bit integers; the named enumerators of
`Assembler::CSR` from `assembler.hpp`. -/
abbrev CSR := Nat

def CSR.FFlags : CSR := 0x001
def CSR.FRM : CSR := 0x002
def CSR.FCSR : CSR := 0x003
def CSR.Cycle : CSR := 0xC00
def CSR.Time : CSR := 0xC01
def CSR.InstRet : CSR := 0xC02

/-- The names of the CSR pseudo-instruction family declared in
`assembler.hpp` (the block following the six `CSRR*` base instructions). -/
def csrPseudoNames : List String :=
  ["CSRR", "CSWR", "CSRS", "CSRC", "CSRCI", "CSRSI", "CSRWI"]

/-! ### Format packers

Modelled from the spec, section 4.3: the exact MSB→LSB bit layouts of the
R, I, B, J and atomic formats and of the compressed CJ format.  Fields are
positioned by multiplication with the weight of their low bit; every field
is masked to its width, so distinct fields never overlap and the sum equals
the bitwise OR of the placed fields. -/

/-- R format: `funct7[31:25] | rs2[24:20] | rs1[19:15] | funct3[14:12] |
rd[11:7] | opcode[6:0]`. -/
def encodeRType (funct7 rs2 rs1 funct3 rd opcode : Nat) : Nat :=
  funct7 % 0x80 * 0x2000000 + rs2 % 32 * 0x100000 + rs1 % 32 * 0x8000 +
    funct3 % 8 * 0x1000 + rd % 32 * 0x80 + opcode % 0x80

/-- I format: `imm[31:20] | rs1[19:15] | funct3[14:12] | rd[11:7] |
opcode[6:0]`, `imm` truncated to its 12-bit slot. -/
def encodeIType (imm rs1 funct3 rd opcode : Nat) : Nat :=
  imm % 0x1000 * 0x100000 + rs1 % 32 * 0x8000 + funct3 % 8 * 0x1000 +
    rd % 32 * 0x80 + opcode % 0x80

/-- The 13-bit B-format immediate pattern `u` scrambled into its slots:
`u[12]→31, u[10:5]→30:25, u[4:1]→11:8, u[11]→7` (bit 0 implicit). -/
def encodeBCore (u rs2 rs1 funct3 opcode : Nat) : Nat :=
  u / 0x1000 % 2 * 0x80000000 + u / 0x20 % 0x40 * 0x2000000 +
    rs2 % 32 * 0x100000 + rs1 % 32 * 0x8000 + funct3 % 8 * 0x1000 +
    u / 2 % 0x10 * 0x100 + u / 0x800 % 2 * 0x80 + opcode % 0x80

/-- B format with a signed byte displacement (two's complement, 13 bits). -/
def encodeBType (d : Int) (rs2 rs1 funct3 opcode : Nat) : Nat :=
  encodeBCore (d % 0x2000).toNat rs2 rs1 funct3 opcode

/-- Reassemble the 13-bit B-format immediate pattern from a 32-bit word. -/
def extractBCore (w : Nat) : Nat :=
  w / 0x80000000 % 2 * 0x1000 + w / 0x80 % 2 * 0x800 +
    w / 0x2000000 % 0x40 * 0x20 + w / 0x100 % 0x10 * 2

/-- The signed displacement encoded in the B-type immediate field of `w`. -/
def extractBImm (w : Nat) : Int :=
  (extractBCore w : Int) - extractBCore w / 0x1000 * 0x2000

/-- The 21-bit J-format immediate pattern `u` scrambled into its slots:
`u[20]→31, u[10:1]→30:21, u[11]→20, u[19:12]→19:12` (bit 0 implicit). -/
def encodeJCore (u rd opcode : Nat) : Nat :=
  u / 0x100000 % 2 * 0x80000000 + u / 2 % 0x400 * 0x200000 +
    u / 0x800 % 2 * 0x100000 + u / 0x1000 % 0x100 * 0x1000 +
    rd % 32 * 0x80 + opcode % 0x80

/-- J format with a signed byte displacement (two's complement, 21 bits). -/
def encodeJType (d : Int) (rd opcode : Nat) : Nat :=
  encodeJCore (d % 0x200000).toNat rd opcode

/-- Reassemble the 21-bit J-format immediate pattern from a 32-bit word. -/
def extractJCore (w : Nat) : Nat :=
  w / 0x80000000 % 2 * 0x100000 + w / 0x1000 % 0x100 * 0x1000 +
    w / 0x100000 % 2 * 0x800 + w / 0x200000 % 0x400 * 2

/-- The signed displacement encoded in the J-type immediate field of `w`. -/
def extractJImm (w : Nat) : Int :=
  (extractJCore w : Int) - extractJCore w / 0x100000 * 0x200000

/-- Atomic R-type variant: `funct5[31:27] | aq[26] | rl[25] | rs2 | rs1 |
funct3 | rd | opcode`, aq/rl from the `Ordering` value. -/
def encodeAtomic (funct5 : Nat) (ordering : MemOrdering)
    (rs2 rs1 funct3 rd opcode : Nat) : Nat :=
  funct5 % 32 * 0x8000000 + ordering.val * 0x2000000 + rs2 % 32 * 0x100000 +
    rs1 % 32 * 0x8000 + funct3 % 8 * 0x1000 + rd % 32 * 0x80 + opcode % 0x80

/-- FENCE: `fm[31:28] | pred[27:24] | succ[23:20] | rs1 | funct3 | rd |
opcode`. -/
def encodeFence (fm pred succ rs1 funct3 rd opcode : Nat) : Nat :=
  fm % 16 * 0x10000000 + pred % 16 * 0x1000000 + succ % 16 * 0x100000 +
    rs1 % 32 * 0x8000 + funct3 % 8 * 0x1000 + rd % 32 * 0x80 + opcode % 0x80

/-- The 12-bit CJ-format immediate pattern `u` scrambled into instruction
bits `[12:2]` as `u[11|4|9:8|10|6|7|3:1|5]` (bit 0 implicit). -/
def encodeCJCore (funct3 u op : Nat) : Nat :=
  funct3 % 8 * 0x2000 + u / 0x800 % 2 * 0x1000 + u / 0x10 % 2 * 0x800 +
    u / 0x100 % 4 * 0x200 + u / 0x400 % 2 * 0x100 + u / 0x40 % 2 * 0x80 +
    u / 0x80 % 2 * 0x40 + u / 2 % 8 * 8 + u / 0x20 % 2 * 4 + op % 4

/-- CJ format with a signed byte offset (two's complement, 12 bits). -/
def encodeCJ (funct3 : Nat) (d : Int) (op : Nat) : Nat :=
  encodeCJCore funct3 (d % 0x1000).toNat op

/-- Reassemble the 12-bit CJ-format immediate pattern from a 16-bit word. -/
def extractCJCore (h : Nat) : Nat :=
  h / 0x1000 % 2 * 0x800 + h / 0x100 % 2 * 0x400 + h / 0x200 % 4 * 0x100 +
    h / 0x40 % 2 * 0x80 + h / 0x80 % 2 * 0x40 + h / 4 % 2 * 0x20 +
    h / 0x800 % 2 * 0x10 + h / 8 % 8 * 2

/-- The signed offset encoded in the CJ immediate field of halfword `h`. -/
def extractCJImm (h : Nat) : Int :=
  (extractCJCore h : Int) - extractCJCore h / 0x800 * 0x1000

/-! ### Displacement range checks

Modelled from the spec: B-type ±4 KiB, J-type ±1 MiB, CJ ±2 KiB, byte
displacements with bit 0 implicitly zero; an out-of-range displacement known
at emit time is rejected (`ImmediateOutOfRange`). -/

def isValidBDisp (d : Int) : Bool :=
  decide (-4096 ≤ d ∧ d < 4096 ∧ d % 2 = 0)

def isValidJDisp (d : Int) : Bool :=
  decide (-1048576 ≤ d ∧ d < 1048576 ∧ d % 2 = 0)

def isValidCJDisp (d : Int) : Bool :=
  decide (-2048 ≤ d ∧ d < 2048 ∧ d % 2 = 0)

/-! ### Format-packer emit functions (the private `Emit*Type` members) -/

/-- Modelled from the spec: `EmitBType` packs and appends a B-format word,
rejecting an out-of-range displacement. -/
def emitBType (b : CodeBuffer) (d : Int) (rs2 rs1 funct3 opcode : Nat) :
    Option CodeBuffer :=
  if isValidBDisp d then emit32 b (encodeBType d rs2 rs1 funct3 opcode)
  else none

/-- Modelled from the spec: `EmitJType` packs and appends a J-format word,
rejecting an out-of-range displacement. -/
def emitJType (b : CodeBuffer) (d : Int) (rd opcode : Nat) :
    Option CodeBuffer :=
  if isValidJDisp d then emit32 b (encodeJType d rd opcode) else none

/-- Modelled from the spec: `EmitCompressedJump` packs and appends a CJ-format
halfword, rejecting an out-of-range offset. -/
def emitCompressedJump (b : CodeBuffer) (funct3 : Nat) (d : Int) (op : Nat) :
    Option CodeBuffer :=
  if isValidCJDisp d then emit16 b (encodeCJ funct3 d op) else none

/-- Modelled from the spec: `EmitIType` packs and appends an I-format word. -/
def emitIType (b : CodeBuffer) (imm rs1 funct3 rd opcode : Nat) :
    Option CodeBuffer :=
  emit32 b (encodeIType imm rs1 funct3 rd opcode)

/-- Modelled from the spec: `EmitRType` packs and appends an R-format word. -/
def emitRType (b : CodeBuffer) (funct7 rs2 rs1 funct3 rd opcode : Nat) :
    Option CodeBuffer :=
  emit32 b (encodeRType funct7 rs2 rs1 funct3 rd opcode)

/-- A signed 12-bit immediate as the Nat content of its I-format slot
(two's complement, matching the `int32_t → uint32_t` conversion followed by
the 12-bit field mask). -/
def imm12 (imm : Int) : Nat :=
  (imm % 0x1000).toNat

/-! ### RV32I / RV64I / M / A / Zicsr / F mnemonics

One emit function per declared mnemonic of `assembler.hpp`; each selects the
ISA constants (`funct7`, `funct3`, `funct5`, opcode) for its mnemonic and
delegates to the matching format packer.  Overload sets of the header are
split by suffix: `…i` takes the integer displacement overload, the plain
name takes the label overload where both exist. -/

def ADD (b : CodeBuffer) (rd lhs rhs : GPR) : Option CodeBuffer :=
  emitRType b 0 rhs.val lhs.val 0 rd.val 0x33

def SUB (b : CodeBuffer) (rd lhs rhs : GPR) : Option CodeBuffer :=
  emitRType b 0x20 rhs.val lhs.val 0 rd.val 0x33

def SLT (b : CodeBuffer) (rd lhs rhs : GPR) : Option CodeBuffer :=
  emitRType b 0 rhs.val lhs.val 2 rd.val 0x33

def SLTU (b : CodeBuffer) (rd lhs rhs : GPR) : Option CodeBuffer :=
  emitRType b 0 rhs.val lhs.val 3 rd.val 0x33

def ADDI (b : CodeBuffer) (rd rs : GPR) (imm : Int) : Option CodeBuffer :=
  emitIType b (imm12 imm) rs.val 0 rd.val 0x13

def XORI (b : CodeBuffer) (rd rs : GPR) (imm : Nat) : Option CodeBuffer :=
  emitIType b imm rs.val 4 rd.val 0x13

def SLTIU (b : CodeBuffer) (rd rs : GPR) (imm : Nat) : Option CodeBuffer :=
  emitIType b imm rs.val 3 rd.val 0x13

def JALR (b : CodeBuffer) (rd : GPR) (imm : Int) (rs1 : GPR) :
    Option CodeBuffer :=
  emitIType b (imm12 imm) rs1.val 0 rd.val 0x67

/-- `JAL(GPR, int32_t)`: plain jump-and-link with a known displacement. -/
def JALi (b : CodeBuffer) (rd : GPR) (d : Int) : Option CodeBuffer :=
  emitJType b d rd.val 0x6F

/-- The shared body of the sixteen `B…(GPR, GPR, int32_t)` overloads:
branch with condition `funct3` and a known displacement. -/
def branchImm (b : CodeBuffer) (funct3 : Nat) (rs1 rs2 : GPR) (d : Int) :
    Option CodeBuffer :=
  emitBType b d rs2.val rs1.val funct3 0x63

def BEQi (b : CodeBuffer) (rs1 rs2 : GPR) (d : Int) : Option CodeBuffer :=
  branchImm b 0 rs1 rs2 d

def BNEi (b : CodeBuffer) (rs1 rs2 : GPR) (d : Int) : Option CodeBuffer :=
  branchImm b 1 rs1 rs2 d

def BLTi (b : CodeBuffer) (rs1 rs2 : GPR) (d : Int) : Option CodeBuffer :=
  branchImm b 4 rs1 rs2 d

def BGEi (b : CodeBuffer) (rs1 rs2 : GPR) (d : Int) : Option CodeBuffer :=
  branchImm b 5 rs1 rs2 d

def BLTUi (b : CodeBuffer) (rs1 rs2 : GPR) (d : Int) : Option CodeBuffer :=
  branchImm b 6 rs1 rs2 d

def BGEUi (b : CodeBuffer) (rs1 rs2 : GPR) (d : Int) : Option CodeBuffer :=
  branchImm b 7 rs1 rs2 d

/-- `C.J` with a known offset (CJ format, funct3 = 0b101, op = 0b01). -/
def C_Ji (b : CodeBuffer) (d : Int) : Option CodeBuffer :=
  emitCompressedJump b 5 d 1

/-- `C.JAL` with a known offset (CJ format, funct3 = 0b001, op = 0b01). -/
def C_JALi (b : CodeBuffer) (d : Int) : Option CodeBuffer :=
  emitCompressedJump b 1 d 1

/-- `C.ADDI` (CI format, funct3 = 0b000, op = 0b01):
`funct3 | imm[5] | rd | imm[4:0] | op`. -/
def C_ADDI (b : CodeBuffer) (rd : GPR) (imm : Int) : Option CodeBuffer :=
  emit16 b (let u := (imm % 0x40).toNat
    u / 0x20 % 2 * 0x1000 + rd.val * 0x80 + u % 0x20 * 4 + 1)

/-- `C.NOP` (CI format, all fields zero, op = 0b01). -/
def C_NOP (b : CodeBuffer) : Option CodeBuffer :=
  emit16 b 1

/-! Pseudo-instructions: compositions of a single base instruction with
fixed operands, per the spec's canonical table. -/

def NOP (b : CodeBuffer) : Option CodeBuffer := ADDI b x0 x0 0

def MV (b : CodeBuffer) (rd rs : GPR) : Option CodeBuffer := ADDI b rd rs 0

def NEG (b : CodeBuffer) (rd rs : GPR) : Option CodeBuffer := SUB b rd x0 rs

/-- `NOT rd, rs` is `XORI rd, rs, -1`; the header's `XORI` takes a
`uint32_t`, so the literal `-1` arrives as `0xFFFFFFFF`. -/
def NOT (b : CodeBuffer) (rd rs : GPR) : Option CodeBuffer :=
  XORI b rd rs 0xFFFFFFFF

def SEQZ (b : CodeBuffer) (rd rs : GPR) : Option CodeBuffer :=
  SLTIU b rd rs 1

def SNEZ (b : CodeBuffer) (rd rs : GPR) : Option CodeBuffer :=
  SLTU b rd x0 rs

def SLTZ (b : CodeBuffer) (rd rs : GPR) : Option CodeBuffer :=
  SLT b rd rs x0

def SGTZ (b : CodeBuffer) (rd rs : GPR) : Option CodeBuffer :=
  SLT b rd x0 rs

def RET (b : CodeBuffer) : Option CodeBuffer := JALR b x0 0 x1

def JR (b : CodeBuffer) (rs : GPR) : Option CodeBuffer := JALR b x0 0 rs

/-- `JALR(GPR rs)` (one-argument pseudo): `JALR x1, 0, rs`. -/
def JALRone (b : CodeBuffer) (rs : GPR) : Option CodeBuffer := JALR b x1 0 rs

/-- The `FenceOrder::W` flag (memory write) from `assembler.hpp`. -/
def FenceOrder.W : Nat := 1

/-- The `FenceOrder::IORW` mask from `assembler.hpp`. -/
def FenceOrder.IORW : Nat := 15

/-- Modelled from the spec: `EmitFENCE` packs and appends a FENCE-format
word (`fm | pred | succ | rs1 | funct3 | rd | opcode`). -/
def emitFENCE (b : CodeBuffer) (fm pred succ rs1 funct3 rd opcode : Nat) :
    Option CodeBuffer :=
  emit32 b (encodeFence fm pred succ rs1 funct3 rd opcode)

/-- `FENCE(pred, succ)`: fm = 0, rs1 = x0, rd = x0, opcode = 0b0001111. -/
def FENCE (b : CodeBuffer) (pred succ : Nat) : Option CodeBuffer :=
  emitFENCE b 0 pred succ 0 0 0 0x0F

/-- `PAUSE` (Zihintpause): a FENCE with fm = 0, pred = W, succ = 0. -/
def PAUSE (b : CodeBuffer) : Option CodeBuffer :=
  emitFENCE b 0 FenceOrder.W 0 0 0 0 0x0F

/-- `J(int32_t)`: `JAL x0, offset`. -/
def Ji (b : CodeBuffer) (d : Int) : Option CodeBuffer := JALi b x0 d

/-- `JAL(int32_t)` (one-argument pseudo): `JAL x1, offset`. -/
def JALone (b : CodeBuffer) (d : Int) : Option CodeBuffer := JALi b x1 d

def BEQZi (b : CodeBuffer) (rs : GPR) (d : Int) : Option CodeBuffer :=
  BEQi b rs x0 d

def BGEZi (b : CodeBuffer) (rs : GPR) (d : Int) : Option CodeBuffer :=
  BGEi b rs x0 d

def BGTi (b : CodeBuffer) (rs rt : GPR) (d : Int) : Option CodeBuffer :=
  BLTi b rt rs d

def BLEi (b : CodeBuffer) (rs rt : GPR) (d : Int) : Option CodeBuffer :=
  BGEi b rt rs d

/-! Atomic (RV32A) and Zicsr instructions, with the instruction words they
pack. -/

/-- The word emitted by `LR.W`: funct5 = 0b00010, rs2 = 0, funct3 = 0b010,
opcode = 0b0101111. -/
def lrwWord (ordering : MemOrdering) (rd rs : GPR) : Nat :=
  encodeAtomic 2 ordering 0 rs.val 2 rd.val 0x2F

def LR_W (b : CodeBuffer) (ordering : MemOrdering) (rd rs : GPR) :
    Option CodeBuffer :=
  emit32 b (lrwWord ordering rd rs)

/-- The word emitted by `CSRRW`: I-format, csr in the immediate slot,
funct3 = 0b001, opcode = 0b1110011. -/
def csrrwWord (rd : GPR) (csr : CSR) (rs : GPR) : Nat :=
  encodeIType csr rs.val 1 rd.val 0x73

/-- The word emitted by `CSRRS`: funct3 = 0b010. -/
def csrrsWord (rd : GPR) (csr : CSR) (rs : GPR) : Nat :=
  encodeIType csr rs.val 2 rd.val 0x73

/-- The word emitted by `CSRRC`: funct3 = 0b011. -/
def csrrcWord (rd : GPR) (csr : CSR) (rs : GPR) : Nat :=
  encodeIType csr rs.val 3 rd.val 0x73

/-- The word emitted by `CSRRWI`: the 5-bit zero-extended immediate occupies
the rs1 slot, funct3 = 0b101. -/
def csrrwiWord (rd : GPR) (csr : CSR) (imm : Nat) : Nat :=
  encodeIType csr (imm % 32) 5 rd.val 0x73

/-- The word emitted by `CSRRSI`: funct3 = 0b110. -/
def csrrsiWord (rd : GPR) (csr : CSR) (imm : Nat) : Nat :=
  encodeIType csr (imm % 32) 6 rd.val 0x73

/-- The word emitted by `CSRRCI`: funct3 = 0b111. -/
def csrrciWord (rd : GPR) (csr : CSR) (imm : Nat) : Nat :=
  encodeIType csr (imm % 32) 7 rd.val 0x73

def CSRRW (b : CodeBuffer) (rd : GPR) (csr : CSR) (rs : GPR) :
    Option CodeBuffer :=
  emit32 b (csrrwWord rd csr rs)

def CSRRS (b : CodeBuffer) (rd : GPR) (csr : CSR) (rs : GPR) :
    Option CodeBuffer :=
  emit32 b (csrrsWord rd csr rs)

def CSRRC (b : CodeBuffer) (rd : GPR) (csr : CSR) (rs : GPR) :
    Option CodeBuffer :=
  emit32 b (csrrcWord rd csr rs)

def CSRRWI (b : CodeBuffer) (rd : GPR) (csr : CSR) (imm : Nat) :
    Option CodeBuffer :=
  emit32 b (csrrwiWord rd csr imm)

def CSRRSI (b : CodeBuffer) (rd : GPR) (csr : CSR) (imm : Nat) :
    Option CodeBuffer :=
  emit32 b (csrrsiWord rd csr imm)

def CSRRCI (b : CodeBuffer) (rd : GPR) (csr : CSR) (imm : Nat) :
    Option CodeBuffer :=
  emit32 b (csrrciWord rd csr imm)

/-- Modelled from the spec: the CSR write pseudo `CSWR(csr, rs)` is
`CSRRW(x0, csr, rs)` (the header declares `CSWR`, an apparent misspelling
of `CSRW`; no `CSRW` is declared). -/
def CSWR (b : CodeBuffer) (csr : CSR) (rs : GPR) : Option CodeBuffer :=
  CSRRW b x0 csr rs

/-! F extension sign-injection instructions and their pseudos. -/

def FSGNJ_S (b : CodeBuffer) (rd rs1 rs2 : FPR) : Option CodeBuffer :=
  emitRType b 0x10 rs2.val rs1.val 0 rd.val 0x53

def FSGNJN_S (b : CodeBuffer) (rd rs1 rs2 : FPR) : Option CodeBuffer :=
  emitRType b 0x10 rs2.val rs1.val 1 rd.val 0x53

def FSGNJX_S (b : CodeBuffer) (rd rs1 rs2 : FPR) : Option CodeBuffer :=
  emitRType b 0x10 rs2.val rs1.val 2 rd.val 0x53

def FMV_S (b : CodeBuffer) (rd rs : FPR) : Option CodeBuffer :=
  FSGNJ_S b rd rs rs

def FABS_S (b : CodeBuffer) (rd rs : FPR) : Option CodeBuffer :=
  FSGNJX_S b rd rs rs

def FNEG_S (b : CodeBuffer) (rd rs : FPR) : Option CodeBuffer :=
  FSGNJN_S b rd rs rs

/-! ### Labels and the fixup protocol -/

/-- Modelled from the spec: a label is either unbound (holding the ordered
set of pending fixup offsets) or bound (holding one location offset with an
empty pending set). -/
structure Label where
  location : Option Nat
  unresolvedOffsets : List Nat

/-- Modelled from the spec: `LinkAndGetOffset` returns the signed PC-relative
displacement from the emit site to a bound label, or records the emit site in
the label's pending set and returns the placeholder displacement zero. -/
def linkAndGetOffset (b : CodeBuffer) (l : Label) : Int × Label :=
  match l.location with
  | some loc => ((loc : Int) - (b.cursor : Int), l)
  | none => (0, ⟨none, b.cursor :: l.unresolvedOffsets⟩)

/-- The shared body of the sixteen `B…(GPR, GPR, Label*)` overloads: link the
label at the current cursor, then emit the branch with the linked
displacement. -/
def branchLbl (b : CodeBuffer) (funct3 : Nat) (rs1 rs2 : GPR) (l : Label) :
    Option (CodeBuffer × Label) :=
  let p := linkAndGetOffset b l
  (branchImm b funct3 rs1 rs2 p.1).map fun b2 => (b2, p.2)

def BEQ (b : CodeBuffer) (rs1 rs2 : GPR) (l : Label) :
    Option (CodeBuffer × Label) :=
  branchLbl b 0 rs1 rs2 l

/-- `JAL(GPR, Label*)`. -/
def JALl (b : CodeBuffer) (rd : GPR) (l : Label) :
    Option (CodeBuffer × Label) :=
  let p := linkAndGetOffset b l
  (JALi b rd p.1).map fun b2 => (b2, p.2)

/-- `C.J(Label*)`. -/
def C_Jl (b : CodeBuffer) (l : Label) : Option (CodeBuffer × Label) :=
  let p := linkAndGetOffset b l
  (C_Ji b p.1).map fun b2 => (b2, p.2)

/-- The rs2 field (bits 24:20) of a 32-bit word. -/
def fieldRs2 (w : Nat) : Nat := w / 0x100000 % 32

/-- The rs1 field (bits 19:15) of a 32-bit word. -/
def fieldRs1 (w : Nat) : Nat := w / 0x8000 % 32

/-- The funct3 field (bits 14:12) of a 32-bit word. -/
def fieldFunct3 (w : Nat) : Nat := w / 0x1000 % 8

/-- The rd field (bits 11:7) of a 32-bit word. -/
def fieldRd (w : Nat) : Nat := w / 0x80 % 32

/-- The opcode field (bits 6:0) of a 32-bit word. -/
def fieldOpcode (w : Nat) : Nat := w % 0x80

/-- The funct3 field (bits 15:13) of a compressed halfword. -/
def fieldCFunct3 (h : Nat) : Nat := h / 0x2000 % 8

/-- The op field (bits 1:0) of a compressed halfword. -/
def fieldCOp (h : Nat) : Nat := h % 4

/-- Modelled from the spec: resolve one pending fixup site.  The placeholder
instruction is reread from the buffer; its format is recognized from its
opcode (B-type branch `0b1100011`, J-type jump `0b1101111`, or the
compressed jumps `C.J`/`C.JAL`), its immediate field is re-encoded with the
displacement `here - site` preserving all other bits, and the word is
overwritten in place.  A displacement out of the format's range, or an
unrecognized site, fails. -/
def resolveSite (b : CodeBuffer) (here site : Nat) : Option CodeBuffer :=
  if readWord16 b.mem site % 4 = 3 then
    if fieldOpcode (readWord32 b.mem site) = 0x63 then
      if isValidBDisp ((here : Int) - (site : Int)) then
        some (overwriteAt32 b site
          (encodeBType ((here : Int) - (site : Int))
            (fieldRs2 (readWord32 b.mem site))
            (fieldRs1 (readWord32 b.mem site))
            (fieldFunct3 (readWord32 b.mem site))
            (fieldOpcode (readWord32 b.mem site))))
      else none
    else if fieldOpcode (readWord32 b.mem site) = 0x6F then
      if isValidJDisp ((here : Int) - (site : Int)) then
        some (overwriteAt32 b site
          (encodeJType ((here : Int) - (site : Int))
            (fieldRd (readWord32 b.mem site))
            (fieldOpcode (readWord32 b.mem site))))
      else none
    else none
  else
    if fieldCOp (readWord16 b.mem site) = 1 ∧
        (fieldCFunct3 (readWord16 b.mem site) = 1 ∨
          fieldCFunct3 (readWord16 b.mem site) = 5) then
      if isValidCJDisp ((here : Int) - (site : Int)) then
        some (overwriteAt16 b site
          (encodeCJ (fieldCFunct3 (readWord16 b.mem site))
            ((here : Int) - (site : Int))
            (fieldCOp (readWord16 b.mem site))))
      else none
    else none

/-- Modelled from the spec: `ResolveLabelOffsets` walks the pending-fixup
chain and patches each site. -/
def resolveAll (b : CodeBuffer) (here : Nat) : List Nat → Option CodeBuffer
  | [] => some b
  | site :: rest =>
    match resolveSite b here site with
    | some b2 => resolveAll b2 here rest
    | none => none

/-- Modelled from the spec: `Bind(label)` requires an unbound label
(`DoubleBind` otherwise), patches every pending site with the displacement
from the site to the current cursor, clears the pending chain and binds the
label at the current cursor. -/
def bindLabel (b : CodeBuffer) (l : Label) : Option (CodeBuffer × Label) :=
  match l.location with
  | some _ => none
  | none =>
    match resolveAll b b.cursor l.unresolvedOffsets with
    | some b2 => some (b2, ⟨some b.cursor, []⟩)
    | none => none

/-- The post-`Bind` contract at a single fixup site: the instruction word
now at `site` (32-bit branch/jump or compressed jump, recognized from the
bytes that were at the site before the bind) carries the displacement
`here - site` in its immediate field, and every field outside the immediate
is unchanged. -/
def siteResolved (mOld mNew : Nat → Nat) (here site : Nat) : Prop :=
  if readWord16 mOld site % 4 = 3 then
    if fieldOpcode (readWord32 mOld site) = 0x63 then
      extractBImm (readWord32 mNew site) = (here : Int) - (site : Int) ∧
      fieldRs2 (readWord32 mNew site) = fieldRs2 (readWord32 mOld site) ∧
      fieldRs1 (readWord32 mNew site) = fieldRs1 (readWord32 mOld site) ∧
      fieldFunct3 (readWord32 mNew site) = fieldFunct3 (readWord32 mOld site) ∧
      fieldOpcode (readWord32 mNew site) = fieldOpcode (readWord32 mOld site)
    else if fieldOpcode (readWord32 mOld site) = 0x6F then
      extractJImm (readWord32 mNew site) = (here : Int) - (site : Int) ∧
      fieldRd (readWord32 mNew site) = fieldRd (readWord32 mOld site) ∧
      fieldOpcode (readWord32 mNew site) = fieldOpcode (readWord32 mOld site)
    else False
  else
    if fieldCOp (readWord16 mOld site) = 1 ∧
        (fieldCFunct3 (readWord16 mOld site) = 1 ∨
          fieldCFunct3 (readWord16 mOld site) = 5) then
      extractCJImm (readWord16 mNew site) = (here : Int) - (site : Int) ∧
      fieldCFunct3 (readWord16 mNew site) = fieldCFunct3 (readWord16 mOld site) ∧
      fieldCOp (readWord16 mNew site) = fieldCOp (readWord16 mOld site)
    else False

/-- The width in bytes of the instruction starting at `site`, recognized
from its low halfword exactly as the resolver does: 4 for a 32-bit
instruction (low two bits `11`), 2 for a compressed one. -/
def siteWidth (m : Nat → Nat) (site : Nat) : Nat :=
  if readWord16 m site % 4 = 3 then 4 else 2

/-! ### A syntactic universe of fixed-operand emit calls

`Instr` ranges over the modelled mnemonics whose operands are fixed
(no label argument), so the universal statements about "every mnemonic"
quantify over it. -/

inductive Instr where
  | add (rd lhs rhs : GPR)
  | sub (rd lhs rhs : GPR)
  | slt (rd lhs rhs : GPR)
  | sltu (rd lhs rhs : GPR)
  | addi (rd rs : GPR) (imm : Int)
  | xori (rd rs : GPR) (imm : Nat)
  | sltiu (rd rs : GPR) (imm : Nat)
  | jalr (rd : GPR) (imm : Int) (rs1 : GPR)
  | jal (rd : GPR) (d : Int)
  | branch (funct3 : Nat) (rs1 rs2 : GPR) (d : Int)
  | lrw (ordering : MemOrdering) (rd rs : GPR)
  | csrrw (rd : GPR) (csr : CSR) (rs : GPR)
  | fsgnjS (rd rs1 rs2 : FPR)
  | nop
  | cAddi (rd : GPR) (imm : Int)
  | cNop
  | cJ (d : Int)
  | cJal (d : Int)

/-- Dispatch an `Instr` to its emit function. -/
def Instr.emit : Instr → CodeBuffer → Option CodeBuffer
  | .add rd lhs rhs, b => ADD b rd lhs rhs
  | .sub rd lhs rhs, b => SUB b rd lhs rhs
  | .slt rd lhs rhs, b => SLT b rd lhs rhs
  | .sltu rd lhs rhs, b => SLTU b rd lhs rhs
  | .addi rd rs imm, b => ADDI b rd rs imm
  | .xori rd rs imm, b => XORI b rd rs imm
  | .sltiu rd rs imm, b => SLTIU b rd rs imm
  | .jalr rd imm rs1, b => JALR b rd imm rs1
  | .jal rd d, b => JALi b rd d
  | .branch funct3 rs1 rs2 d, b => branchImm b funct3 rs1 rs2 d
  | .lrw ordering rd rs, b => LR_W b ordering rd rs
  | .csrrw rd csr rs, b => CSRRW b rd csr rs
  | .fsgnjS rd rs1 rs2, b => FSGNJ_S b rd rs1 rs2
  | .nop, b => NOP b
  | .cAddi rd imm, b => C_ADDI b rd imm
  | .cNop, b => C_NOP b
  | .cJ d, b => C_Ji b d
  | .cJal d, b => C_JALi b d

/-- Whether the mnemonic is a compressed (`C_*`) one. -/
def Instr.isCompressed : Instr → Bool
  | .cAddi _ _ => true
  | .cNop => true
  | .cJ _ => true
  | .cJal _ => true
  | _ => false

/-- The instruction width in bytes: 2 for compressed, 4 for base. -/
def Instr.width : Instr → Nat
  | .cAddi _ _ => 2
  | .cNop => 2
  | .cJ _ => 2
  | .cJal _ => 2
  | _ => 4

/-- An assembler operation, for invariant statements ranging over whole
operation sequences. -/
inductive Op where
  | instr (i : Instr)
  | over32 (off w : Nat)
  | over16 (off w : Nat)
  | rewind (k : Nat)
  | bindL (l : Label)
  | branchL (funct3 : Nat) (rs1 rs2 : GPR) (l : Label)
  | jalL (rd : GPR) (l : Label)

/-- Apply one operation to the buffer (labels live with the caller; the
buffer effect is what the cursor invariant is about). -/
def Op.apply : Op → CodeBuffer → Option CodeBuffer
  | .instr i, b => i.emit b
  | .over32 off w, b =>
    if off + 4 ≤ b.cursor then some (overwriteAt32 b off w) else none
  | .over16 off w, b =>
    if off + 2 ≤ b.cursor then some (overwriteAt16 b off w) else none
  | .rewind k, b => rewindCursor b k
  | .bindL l, b => (bindLabel b l).map fun p => p.1
  | .branchL funct3 rs1 rs2 l, b => (branchLbl b funct3 rs1 rs2 l).map fun p => p.1
  | .jalL rd l, b => (JALl b rd l).map fun p => p.1

/-- Run a sequence of operations. -/
def run : List Op → CodeBuffer → Option CodeBuffer
  | [], b => some b
  | op :: rest, b =>
    match op.apply b with
    | some b2 => run rest b2
    | none => none

/-! ### Scenario states used by the concrete theorems -/

/-- A fresh assembler over an empty 64-byte buffer. -/
def freshBuf64 : CodeBuffer := ⟨fun _ => 0, 0, 64⟩

/-- A fresh assembler over an empty 4-byte buffer. -/
def freshBuf4 : CodeBuffer := ⟨fun _ => 0, 0, 4⟩

/-- A fresh, unbound, empty label. -/
def freshLabel : Label := ⟨none, []⟩

/-- C1 scenario, step 1: `BEQ x1, x2, L` with `L` unbound. -/
def fwdStep1 : Option (CodeBuffer × Label) := BEQ freshBuf64 x1 x2 freshLabel

/-- C1 scenario, after two further `NOP`s. -/
def fwdStep3 : Option (CodeBuffer × Label) :=
  fwdStep1.bind fun p => ((NOP p.1).bind fun b2 => NOP b2).map fun b3 => (b3, p.2)

/-- C1 scenario, after `Bind(L)`. -/
def fwdFinal : Option (CodeBuffer × Label) :=
  fwdStep3.bind fun p => bindLabel p.1 p.2

/-- The pre-`Bind` buffer of the forward-branch scenario, written out:
the placeholder `BEQ x1, x2, 0` word followed by two `NOP` words. -/
def fwdBuf : CodeBuffer :=
  ⟨writeWord32 (writeWord32 (writeWord32 (fun _ => 0) 0 0x00208063) 4 0x13)
    8 0x13, 12, 64⟩

/-- The label of the forward-branch scenario before `Bind`: unbound, one
pending site at offset 0. -/
def fwdLabel : Label := ⟨none, [0]⟩

/-- Fallback values for reading off a `bindLabel` result. -/
def defaultPair : CodeBuffer × Label := (⟨fun _ => 0, 0, 0⟩, ⟨none, []⟩)

/-- The buffer after `Bind` in the forward-branch scenario. -/
def fwdBoundBuf : CodeBuffer := ((bindLabel fwdBuf fwdLabel).getD defaultPair).1

/-- The label after `Bind` in the forward-branch scenario. -/
def fwdBoundLabel : Label := ((bindLabel fwdBuf fwdLabel).getD defaultPair).2

/-- An empty 8-byte buffer. -/
def altBuf8 : CodeBuffer := ⟨fun _ => 0, 0, 8⟩

/-- An 8-byte buffer whose backing bytes start out as `0xAB` garbage (same
cursor and capacity as `altBuf8`, different prior contents). -/
def altBuf8b : CodeBuffer := ⟨fun _ => 0xAB, 0, 8⟩

/-- A sample operation sequence exercising emit, in-place overwrite, rewind
and a compressed emit. -/
def c8ops : List Op :=
  [Op.instr Instr.nop, Op.over32 0 0xFFFFFFFF, Op.rewind 2,
    Op.instr (Instr.cJ 4)]

/-- The buffer after running `c8ops` on `altBuf8`. -/
def c8res : CodeBuffer := (run c8ops altBuf8).getD ⟨fun _ => 0, 0, 0⟩

/-- A label already bound at offset 12. -/
def boundAt12 : Label := ⟨some 12, []⟩

/-- A 64-byte buffer holding two `C.J` placeholder halfwords (`0xA001` =
`encodeCJ 5 0 1`) at offsets 0 and 2 — two pending compressed fixup sites
only 2 bytes apart — with the cursor at 6. -/
def cjFixBuf : CodeBuffer :=
  ⟨writeWord16 (writeWord16 (fun _ => 0) 0 0xA001) 2 0xA001, 6, 64⟩

/-- The label of the compressed-fixup scenario: unbound, pending sites at
offsets 2 and 0 (most recent first). -/
def cjFixLabel : Label := ⟨none, [2, 0]⟩

/-- The buffer after `Bind` in the compressed-fixup scenario. -/
def cjBoundBuf : CodeBuffer :=
  ((bindLabel cjFixBuf cjFixLabel).getD defaultPair).1

/-- The label after `Bind` in the compressed-fixup scenario. -/
def cjBoundLabel : Label :=
  ((bindLabel cjFixBuf cjFixLabel).getD defaultPair).2

/-! ### Memory lemmas -/

theorem writeWord32_outside (m : Nat → Nat) (off w k : Nat)
    (h : k < off ∨ off + 4 ≤ k) : writeWord32 m off w k = m k := by
  unfold writeWord32
  split_ifs <;> first | rfl | (exfalso; omega)

theorem writeWord16_outside (m : Nat → Nat) (off w k : Nat)
    (h : k < off ∨ off + 2 ≤ k) : writeWord16 m off w k = m k := by
  unfold writeWord16
  split_ifs <;> first | rfl | (exfalso; omega)

theorem writeWord32_inside (m m2 : Nat → Nat) (off w k : Nat)
    (h1 : off ≤ k) (h2 : k < off + 4) :
    writeWord32 m off w k = writeWord32 m2 off w k := by
  unfold writeWord32
  split_ifs <;> first | rfl | (exfalso; omega)

theorem writeWord16_inside (m m2 : Nat → Nat) (off w k : Nat)
    (h1 : off ≤ k) (h2 : k < off + 2) :
    writeWord16 m off w k = writeWord16 m2 off w k := by
  unfold writeWord16
  split_ifs <;> first | rfl | (exfalso; omega)

theorem readWord32_congr (m1 m2 : Nat → Nat) (off : Nat)
    (h : ∀ j, off ≤ j → j < off + 4 → m1 j = m2 j) :
    readWord32 m1 off = readWord32 m2 off := by
  unfold readWord32
  rw [h off (by omega) (by omega), h (off + 1) (by omega) (by omega),
    h (off + 2) (by omega) (by omega), h (off + 3) (by omega) (by omega)]

theorem readWord16_congr (m1 m2 : Nat → Nat) (off : Nat)
    (h : ∀ j, off ≤ j → j < off + 2 → m1 j = m2 j) :
    readWord16 m1 off = readWord16 m2 off := by
  unfold readWord16
  rw [h off (by omega) (by omega), h (off + 1) (by omega) (by omega)]

theorem readWord32_writeWord32 (m : Nat → Nat) (off w : Nat) :
    readWord32 (writeWord32 m off w) off = w % 0x100000000 := by
  have h0 : writeWord32 m off w off = w % 256 := by
    unfold writeWord32
    rw [if_pos rfl]
  have h1 : writeWord32 m off w (off + 1) = w / 0x100 % 256 := by
    unfold writeWord32
    rw [if_neg (by omega), if_pos rfl]
  have h2 : writeWord32 m off w (off + 2) = w / 0x10000 % 256 := by
    unfold writeWord32
    rw [if_neg (by omega), if_neg (by omega), if_pos rfl]
  have h3 : writeWord32 m off w (off + 3) = w / 0x1000000 % 256 := by
    unfold writeWord32
    rw [if_neg (by omega), if_neg (by omega), if_neg (by omega), if_pos rfl]
  unfold readWord32
  rw [h0, h1, h2, h3]
  omega

theorem readWord16_writeWord16 (m : Nat → Nat) (off w : Nat) :
    readWord16 (writeWord16 m off w) off = w % 0x10000 := by
  have h0 : writeWord16 m off w off = w % 256 := by
    unfold writeWord16
    rw [if_pos rfl]
  have h1 : writeWord16 m off w (off + 1) = w / 0x100 % 256 := by
    unfold writeWord16
    rw [if_neg (by omega), if_pos rfl]
  unfold readWord16
  rw [h0, h1]
  omega

/-! ### Bit-field extraction lemmas

The packed word of each format is a sum of disjoint shifted fields; the
`…PackFields` lemmas recover every field from the sum, over fresh bounded
variables (the shape `omega` handles), and the `extract…_encode…` round
trips follow by substitution. -/

theorem bPackFields (x12 x105 a b c x41 x11 e : Nat)
    (h12 : x12 < 2) (h105 : x105 < 64) (h41 : x41 < 16) (h11 : x11 < 2)
    (ha : a < 32) (hb : b < 32) (hc : c < 8) (he : e < 128) :
    (x12 * 0x80000000 + x105 * 0x2000000 + a * 0x100000 + b * 0x8000 + c * 0x1000 + x41 * 0x100 + x11 * 0x80 + e) / 0x80000000 % 2 = x12 ∧
    (x12 * 0x80000000 + x105 * 0x2000000 + a * 0x100000 + b * 0x8000 + c * 0x1000 + x41 * 0x100 + x11 * 0x80 + e) / 0x2000000 % 0x40 = x105 ∧
    (x12 * 0x80000000 + x105 * 0x2000000 + a * 0x100000 + b * 0x8000 + c * 0x1000 + x41 * 0x100 + x11 * 0x80 + e) / 0x100000 % 32 = a ∧
    (x12 * 0x80000000 + x105 * 0x2000000 + a * 0x100000 + b * 0x8000 + c * 0x1000 + x41 * 0x100 + x11 * 0x80 + e) / 0x8000 % 32 = b ∧
    (x12 * 0x80000000 + x105 * 0x2000000 + a * 0x100000 + b * 0x8000 + c * 0x1000 + x41 * 0x100 + x11 * 0x80 + e) / 0x1000 % 8 = c ∧
    (x12 * 0x80000000 + x105 * 0x2000000 + a * 0x100000 + b * 0x8000 + c * 0x1000 + x41 * 0x100 + x11 * 0x80 + e) / 0x100 % 0x10 = x41 ∧
    (x12 * 0x80000000 + x105 * 0x2000000 + a * 0x100000 + b * 0x8000 + c * 0x1000 + x41 * 0x100 + x11 * 0x80 + e) / 0x80 % 2 = x11 ∧
    (x12 * 0x80000000 + x105 * 0x2000000 + a * 0x100000 + b * 0x8000 + c * 0x1000 + x41 * 0x100 + x11 * 0x80 + e) % 0x80 = e := by
  refine ⟨?_, ?_, ?_, ?_, ?_, ?_, ?_, ?_⟩ <;> omega

theorem extractBCore_encodeBCore (u a b c e : Nat) (hu : u < 0x2000) :
    extractBCore (encodeBCore u a b c e) = u / 2 * 2 := by
  unfold extractBCore encodeBCore
  obtain ⟨q1, q2, q3, q4, q5, q6, q7, q8⟩ :=
    bPackFields (u / 0x1000 % 2) (u / 0x20 % 0x40) (a % 32) (b % 32) (c % 8)
      (u / 2 % 0x10) (u / 0x800 % 2) (e % 0x80)
      (by omega) (by omega) (by omega) (by omega) (by omega) (by omega)
      (by omega) (by omega)
  rw [q1, q2, q6, q7]
  clear q1 q2 q3 q4 q5 q6 q7 q8
  omega

theorem encodeBCore_lt (u a b c e : Nat) :
    encodeBCore u a b c e < 0x100000000 := by
  unfold encodeBCore
  omega

theorem encodeBCore_fields (u a b c e : Nat) :
    fieldRs2 (encodeBCore u a b c e) = a % 32 ∧
    fieldRs1 (encodeBCore u a b c e) = b % 32 ∧
    fieldFunct3 (encodeBCore u a b c e) = c % 8 ∧
    fieldOpcode (encodeBCore u a b c e) = e % 0x80 := by
  unfold fieldRs2 fieldRs1 fieldFunct3 fieldOpcode encodeBCore
  obtain ⟨q1, q2, q3, q4, q5, q6, q7, q8⟩ :=
    bPackFields (u / 0x1000 % 2) (u / 0x20 % 0x40) (a % 32) (b % 32) (c % 8)
      (u / 2 % 0x10) (u / 0x800 % 2) (e % 0x80)
      (by omega) (by omega) (by omega) (by omega) (by omega) (by omega)
      (by omega) (by omega)
  refine ⟨q3.trans (by omega), q4.trans (by omega), q5.trans (by omega),
    q8.trans (by omega)⟩

theorem extractBImm_encodeBType (d : Int) (a b c e : Nat)
    (h1 : -4096 ≤ d) (h2 : d < 4096) (h3 : d % 2 = 0) :
    extractBImm (encodeBType d a b c e) = d := by
  unfold extractBImm encodeBType
  rw [extractBCore_encodeBCore _ a b c e (by omega)]
  omega

theorem jPackFields (x20 x101 x11 x1912 a e : Nat)
    (h20 : x20 < 2) (h101 : x101 < 0x400) (h11 : x11 < 2)
    (h1912 : x1912 < 0x100) (ha : a < 32) (he : e < 128) :
    (x20 * 0x80000000 + x101 * 0x200000 + x11 * 0x100000 + x1912 * 0x1000 + a * 0x80 + e) / 0x80000000 % 2 = x20 ∧
    (x20 * 0x80000000 + x101 * 0x200000 + x11 * 0x100000 + x1912 * 0x1000 + a * 0x80 + e) / 0x200000 % 0x400 = x101 ∧
    (x20 * 0x80000000 + x101 * 0x200000 + x11 * 0x100000 + x1912 * 0x1000 + a * 0x80 + e) / 0x100000 % 2 = x11 ∧
    (x20 * 0x80000000 + x101 * 0x200000 + x11 * 0x100000 + x1912 * 0x1000 + a * 0x80 + e) / 0x1000 % 0x100 = x1912 ∧
    (x20 * 0x80000000 + x101 * 0x200000 + x11 * 0x100000 + x1912 * 0x1000 + a * 0x80 + e) / 0x80 % 32 = a ∧
    (x20 * 0x80000000 + x101 * 0x200000 + x11 * 0x100000 + x1912 * 0x1000 + a * 0x80 + e) % 0x80 = e := by
  refine ⟨?_, ?_, ?_, ?_, ?_, ?_⟩ <;> omega

theorem extractJCore_encodeJCore (u a e : Nat) (hu : u < 0x200000) :
    extractJCore (encodeJCore u a e) = u / 2 * 2 := by
  unfold extractJCore encodeJCore
  obtain ⟨q1, q2, q3, q4, q5, q6⟩ :=
    jPackFields (u / 0x100000 % 2) (u / 2 % 0x400) (u / 0x800 % 2)
      (u / 0x1000 % 0x100) (a % 32) (e % 0x80)
      (by omega) (by omega) (by omega) (by omega) (by omega) (by omega)
  rw [q1, q2, q3, q4]
  clear q1 q2 q3 q4 q5 q6
  omega

theorem encodeJCore_lt (u a e : Nat) : encodeJCore u a e < 0x100000000 := by
  unfold encodeJCore
  omega

theorem encodeJCore_fields (u a e : Nat) :
    fieldRd (encodeJCore u a e) = a % 32 ∧
    fieldOpcode (encodeJCore u a e) = e % 0x80 := by
  unfold fieldRd fieldOpcode encodeJCore
  obtain ⟨q1, q2, q3, q4, q5, q6⟩ :=
    jPackFields (u / 0x100000 % 2) (u / 2 % 0x400) (u / 0x800 % 2)
      (u / 0x1000 % 0x100) (a % 32) (e % 0x80)
      (by omega) (by omega) (by omega) (by omega) (by omega) (by omega)
  refine ⟨q5.trans (by omega), q6.trans (by omega)⟩

theorem extractJImm_encodeJType (d : Int) (a e : Nat)
    (h1 : -1048576 ≤ d) (h2 : d < 1048576) (h3 : d % 2 = 0) :
    extractJImm (encodeJType d a e) = d := by
  unfold extractJImm encodeJType
  rw [extractJCore_encodeJCore _ a e (by omega)]
  omega

theorem cjPackFields (f x11 x4 x98 x10 x6 x7 x31 x5 o : Nat)
    (hf : f < 8) (h11 : x11 < 2) (h4 : x4 < 2) (h98 : x98 < 4)
    (h10 : x10 < 2) (h6 : x6 < 2) (h7 : x7 < 2) (h31 : x31 < 8)
    (h5 : x5 < 2) (ho : o < 4) :
    (f * 0x2000 + x11 * 0x1000 + x4 * 0x800 + x98 * 0x200 + x10 * 0x100 + x6 * 0x80 + x7 * 0x40 + x31 * 8 + x5 * 4 + o) / 0x2000 % 8 = f ∧
    (f * 0x2000 + x11 * 0x1000 + x4 * 0x800 + x98 * 0x200 + x10 * 0x100 + x6 * 0x80 + x7 * 0x40 + x31 * 8 + x5 * 4 + o) / 0x1000 % 2 = x11 ∧
    (f * 0x2000 + x11 * 0x1000 + x4 * 0x800 + x98 * 0x200 + x10 * 0x100 + x6 * 0x80 + x7 * 0x40 + x31 * 8 + x5 * 4 + o) / 0x800 % 2 = x4 ∧
    (f * 0x2000 + x11 * 0x1000 + x4 * 0x800 + x98 * 0x200 + x10 * 0x100 + x6 * 0x80 + x7 * 0x40 + x31 * 8 + x5 * 4 + o) / 0x200 % 4 = x98 ∧
    (f * 0x2000 + x11 * 0x1000 + x4 * 0x800 + x98 * 0x200 + x10 * 0x100 + x6 * 0x80 + x7 * 0x40 + x31 * 8 + x5 * 4 + o) / 0x100 % 2 = x10 ∧
    (f * 0x2000 + x11 * 0x1000 + x4 * 0x800 + x98 * 0x200 + x10 * 0x100 + x6 * 0x80 + x7 * 0x40 + x31 * 8 + x5 * 4 + o) / 0x80 % 2 = x6 ∧
    (f * 0x2000 + x11 * 0x1000 + x4 * 0x800 + x98 * 0x200 + x10 * 0x100 + x6 * 0x80 + x7 * 0x40 + x31 * 8 + x5 * 4 + o) / 0x40 % 2 = x7 ∧
    (f * 0x2000 + x11 * 0x1000 + x4 * 0x800 + x98 * 0x200 + x10 * 0x100 + x6 * 0x80 + x7 * 0x40 + x31 * 8 + x5 * 4 + o) / 8 % 8 = x31 ∧
    (f * 0x2000 + x11 * 0x1000 + x4 * 0x800 + x98 * 0x200 + x10 * 0x100 + x6 * 0x80 + x7 * 0x40 + x31 * 8 + x5 * 4 + o) / 4 % 2 = x5 ∧
    (f * 0x2000 + x11 * 0x1000 + x4 * 0x800 + x98 * 0x200 + x10 * 0x100 + x6 * 0x80 + x7 * 0x40 + x31 * 8 + x5 * 4 + o) % 4 = o := by
  refine ⟨?_, ?_, ?_, ?_, ?_, ?_, ?_, ?_, ?_, ?_⟩ <;> omega

theorem extractCJCore_encodeCJCore (f u o : Nat) (hu : u < 0x1000) :
    extractCJCore (encodeCJCore f u o) = u / 2 * 2 := by
  unfold extractCJCore encodeCJCore
  obtain ⟨q1, q2, q3, q4, q5, q6, q7, q8, q9, q10⟩ :=
    cjPackFields (f % 8) (u / 0x800 % 2) (u / 0x10 % 2) (u / 0x100 % 4)
      (u / 0x400 % 2) (u / 0x40 % 2) (u / 0x80 % 2) (u / 2 % 8) (u / 0x20 % 2)
      (o % 4)
      (by omega) (by omega) (by omega) (by omega) (by omega) (by omega)
      (by omega) (by omega) (by omega) (by omega)
  rw [q2, q3, q4, q5, q6, q7, q8, q9]
  clear q1 q2 q3 q4 q5 q6 q7 q8 q9 q10
  omega

theorem encodeCJCore_lt (f u o : Nat) : encodeCJCore f u o < 0x10000 := by
  unfold encodeCJCore
  omega

theorem encodeCJCore_fields (f u o : Nat) :
    fieldCFunct3 (encodeCJCore f u o) = f % 8 ∧
    fieldCOp (encodeCJCore f u o) = o % 4 := by
  unfold fieldCFunct3 fieldCOp encodeCJCore
  obtain ⟨q1, q2, q3, q4, q5, q6, q7, q8, q9, q10⟩ :=
    cjPackFields (f % 8) (u / 0x800 % 2) (u / 0x10 % 2) (u / 0x100 % 4)
      (u / 0x400 % 2) (u / 0x40 % 2) (u / 0x80 % 2) (u / 2 % 8) (u / 0x20 % 2)
      (o % 4)
      (by omega) (by omega) (by omega) (by omega) (by omega) (by omega)
      (by omega) (by omega) (by omega) (by omega)
  refine ⟨q1.trans (by omega), q10.trans (by omega)⟩

theorem extractCJImm_encodeCJ (f : Nat) (d : Int) (o : Nat)
    (h1 : -2048 ≤ d) (h2 : d < 2048) (h3 : d % 2 = 0) :
    extractCJImm (encodeCJ f d o) = d := by
  unfold extractCJImm encodeCJ
  rw [extractCJCore_encodeCJCore f _ o (by omega)]
  omega

theorem encodeBType_lt (d : Int) (a b c e : Nat) :
    encodeBType d a b c e < 0x100000000 := by
  unfold encodeBType
  exact encodeBCore_lt _ _ _ _ _

theorem encodeJType_lt (d : Int) (a e : Nat) :
    encodeJType d a e < 0x100000000 := by
  unfold encodeJType
  exact encodeJCore_lt _ _ _

theorem encodeCJ_lt (f : Nat) (d : Int) (o : Nat) :
    encodeCJ f d o < 0x10000 := by
  unfold encodeCJ
  exact encodeCJCore_lt _ _ _

theorem encodeBType_fields (d : Int) (a b c e : Nat) :
    fieldRs2 (encodeBType d a b c e) = a % 32 ∧
    fieldRs1 (encodeBType d a b c e) = b % 32 ∧
    fieldFunct3 (encodeBType d a b c e) = c % 8 ∧
    fieldOpcode (encodeBType d a b c e) = e % 0x80 := by
  unfold encodeBType
  exact encodeBCore_fields _ _ _ _ _

theorem encodeJType_fields (d : Int) (a e : Nat) :
    fieldRd (encodeJType d a e) = a % 32 ∧
    fieldOpcode (encodeJType d a e) = e % 0x80 := by
  unfold encodeJType
  exact encodeJCore_fields _ _ _

theorem encodeCJ_fields (f : Nat) (d : Int) (o : Nat) :
    fieldCFunct3 (encodeCJ f d o) = f % 8 ∧
    fieldCOp (encodeCJ f d o) = o % 4 := by
  unfold encodeCJ
  exact encodeCJCore_fields _ _ _

theorem resolveSite_spec (b b1 : CodeBuffer) (here site : Nat)
    (h : resolveSite b here site = some b1) :
    siteResolved b.mem b1.mem here site ∧
    (∀ k, k < site ∨ site + siteWidth b.mem site ≤ k → b1.mem k = b.mem k) ∧
    b1.cursor = b.cursor ∧ b1.capacity = b.capacity := by
  unfold resolveSite at h
  split_ifs at h with h1 h2 h3 h4 h5 h6 h7 <;>
    try exact Option.noConfusion h
  · -- B-type branch site
    obtain rfl : overwriteAt32 b site
        (encodeBType ((here : Int) - (site : Int))
          (fieldRs2 (readWord32 b.mem site)) (fieldRs1 (readWord32 b.mem site))
          (fieldFunct3 (readWord32 b.mem site))
          (fieldOpcode (readWord32 b.mem site))) = b1 := Option.some.inj h
    simp only [isValidBDisp, decide_eq_true_eq] at h3
    have hsw : siteWidth b.mem site = 4 := by
      unfold siteWidth
      rw [if_pos h1]
    have hmem : (overwriteAt32 b site
        (encodeBType ((here : Int) - (site : Int))
          (fieldRs2 (readWord32 b.mem site)) (fieldRs1 (readWord32 b.mem site))
          (fieldFunct3 (readWord32 b.mem site))
          (fieldOpcode (readWord32 b.mem site)))).mem
        = writeWord32 b.mem site
          (encodeBType ((here : Int) - (site : Int))
            (fieldRs2 (readWord32 b.mem site)) (fieldRs1 (readWord32 b.mem site))
            (fieldFunct3 (readWord32 b.mem site))
            (fieldOpcode (readWord32 b.mem site))) := rfl
    rw [hmem]
    have hw : readWord32 (writeWord32 b.mem site
        (encodeBType ((here : Int) - (site : Int))
          (fieldRs2 (readWord32 b.mem site)) (fieldRs1 (readWord32 b.mem site))
          (fieldFunct3 (readWord32 b.mem site))
          (fieldOpcode (readWord32 b.mem site)))) site
        = encodeBType ((here : Int) - (site : Int))
          (fieldRs2 (readWord32 b.mem site)) (fieldRs1 (readWord32 b.mem site))
          (fieldFunct3 (readWord32 b.mem site))
          (fieldOpcode (readWord32 b.mem site)) := by
      rw [readWord32_writeWord32]
      exact Nat.mod_eq_of_lt (encodeBType_lt _ _ _ _ _)
    refine ⟨?_, ?_, rfl, rfl⟩
    · unfold siteResolved
      rw [if_pos h1, if_pos h2, hw]
      obtain ⟨f1, f2, f3, f4⟩ := encodeBType_fields ((here : Int) - (site : Int))
        (fieldRs2 (readWord32 b.mem site)) (fieldRs1 (readWord32 b.mem site))
        (fieldFunct3 (readWord32 b.mem site))
        (fieldOpcode (readWord32 b.mem site))
      refine ⟨extractBImm_encodeBType _ _ _ _ _ h3.1 h3.2.1 h3.2.2, ?_, ?_, ?_, ?_⟩
      · rw [f1]
        unfold fieldRs2
        omega
      · rw [f2]
        unfold fieldRs1
        omega
      · rw [f3]
        unfold fieldFunct3
        omega
      · rw [f4]
        unfold fieldOpcode
        omega
    · intro k hk
      rw [hsw] at hk
      exact writeWord32_outside _ _ _ _ hk
  · -- J-type jump site
    obtain rfl : overwriteAt32 b site
        (encodeJType ((here : Int) - (site : Int))
          (fieldRd (readWord32 b.mem site))
          (fieldOpcode (readWord32 b.mem site))) = b1 := Option.some.inj h
    simp only [isValidJDisp, decide_eq_true_eq] at h5
    have hsw : siteWidth b.mem site = 4 := by
      unfold siteWidth
      rw [if_pos h1]
    have hw : readWord32 (writeWord32 b.mem site
        (encodeJType ((here : Int) - (site : Int))
          (fieldRd (readWord32 b.mem site))
          (fieldOpcode (readWord32 b.mem site)))) site
        = encodeJType ((here : Int) - (site : Int))
          (fieldRd (readWord32 b.mem site))
          (fieldOpcode (readWord32 b.mem site)) := by
      rw [readWord32_writeWord32]
      exact Nat.mod_eq_of_lt (encodeJType_lt _ _ _)
    refine ⟨?_, ?_, rfl, rfl⟩
    · unfold siteResolved
      rw [if_pos h1, if_neg h2, if_pos h4]
      have hmem : (overwriteAt32 b site
          (encodeJType ((here : Int) - (site : Int))
            (fieldRd (readWord32 b.mem site))
            (fieldOpcode (readWord32 b.mem site)))).mem
          = writeWord32 b.mem site
            (encodeJType ((here : Int) - (site : Int))
              (fieldRd (readWord32 b.mem site))
              (fieldOpcode (readWord32 b.mem site))) := rfl
      rw [hmem, hw]
      obtain ⟨f1, f2⟩ := encodeJType_fields ((here : Int) - (site : Int))
        (fieldRd (readWord32 b.mem site)) (fieldOpcode (readWord32 b.mem site))
      refine ⟨extractJImm_encodeJType _ _ _ h5.1 h5.2.1 h5.2.2, ?_, ?_⟩
      · rw [f1]
        unfold fieldRd
        omega
      · rw [f2]
        unfold fieldOpcode
        omega
    · intro k hk
      rw [hsw] at hk
      exact writeWord32_outside _ _ _ _ hk
  · -- compressed jump site
    obtain rfl : overwriteAt16 b site
        (encodeCJ (fieldCFunct3 (readWord16 b.mem site))
          ((here : Int) - (site : Int))
          (fieldCOp (readWord16 b.mem site))) = b1 := Option.some.inj h
    simp only [isValidCJDisp, decide_eq_true_eq] at h7
    have hsw : siteWidth b.mem site = 2 := by
      unfold siteWidth
      rw [if_neg h1]
    have hw : readWord16 (writeWord16 b.mem site
        (encodeCJ (fieldCFunct3 (readWord16 b.mem site))
          ((here : Int) - (site : Int))
          (fieldCOp (readWord16 b.mem site)))) site
        = encodeCJ (fieldCFunct3 (readWord16 b.mem site))
          ((here : Int) - (site : Int))
          (fieldCOp (readWord16 b.mem site)) := by
      rw [readWord16_writeWord16]
      exact Nat.mod_eq_of_lt (encodeCJ_lt _ _ _)
    refine ⟨?_, ?_, rfl, rfl⟩
    · unfold siteResolved
      rw [if_neg h1, if_pos h6]
      have hmem : (overwriteAt16 b site
          (encodeCJ (fieldCFunct3 (readWord16 b.mem site))
            ((here : Int) - (site : Int))
            (fieldCOp (readWord16 b.mem site)))).mem
          = writeWord16 b.mem site
            (encodeCJ (fieldCFunct3 (readWord16 b.mem site))
              ((here : Int) - (site : Int))
              (fieldCOp (readWord16 b.mem site))) := rfl
      rw [hmem, hw]
      obtain ⟨f1, f2⟩ := encodeCJ_fields (fieldCFunct3 (readWord16 b.mem site))
        ((here : Int) - (site : Int)) (fieldCOp (readWord16 b.mem site))
      refine ⟨extractCJImm_encodeCJ _ _ _ h7.1 h7.2.1 h7.2.2, ?_, ?_⟩
      · rw [f1]
        unfold fieldCFunct3
        omega
      · rw [f2]
        unfold fieldCOp
        omega
    · intro k hk
      rw [hsw] at hk
      exact writeWord16_outside _ _ _ _ hk

theorem siteResolved_congr (mOld mOld2 mNew mNew2 : Nat → Nat) (here site : Nat)
    (hO : ∀ k, site ≤ k → k < site + siteWidth mOld site → mOld2 k = mOld k)
    (hN : ∀ k, site ≤ k → k < site + siteWidth mOld site → mNew2 k = mNew k)
    (h : siteResolved mOld mNew here site) :
    siteResolved mOld2 mNew2 here site := by
  by_cases hcond : readWord16 mOld site % 4 = 3
  · have hsw : siteWidth mOld site = 4 := by
      unfold siteWidth
      rw [if_pos hcond]
    rw [hsw] at hO hN
    have e16O : readWord16 mOld2 site = readWord16 mOld site :=
      readWord16_congr _ _ _ (fun j hj1 hj2 => hO j hj1 (by omega))
    have e32O : readWord32 mOld2 site = readWord32 mOld site :=
      readWord32_congr _ _ _ (fun j hj1 hj2 => hO j hj1 hj2)
    have e16N : readWord16 mNew2 site = readWord16 mNew site :=
      readWord16_congr _ _ _ (fun j hj1 hj2 => hN j hj1 (by omega))
    have e32N : readWord32 mNew2 site = readWord32 mNew site :=
      readWord32_congr _ _ _ (fun j hj1 hj2 => hN j hj1 hj2)
    unfold siteResolved at h ⊢
    simp only [e16O, e32O, e16N, e32N]
    exact h
  · have hsw : siteWidth mOld site = 2 := by
      unfold siteWidth
      rw [if_neg hcond]
    rw [hsw] at hO hN
    have e16O : readWord16 mOld2 site = readWord16 mOld site :=
      readWord16_congr _ _ _ (fun j hj1 hj2 => hO j hj1 hj2)
    have e16N : readWord16 mNew2 site = readWord16 mNew site :=
      readWord16_congr _ _ _ (fun j hj1 hj2 => hN j hj1 hj2)
    unfold siteResolved at h ⊢
    simp only [e16O, e16N]
    rw [if_neg hcond] at h ⊢
    exact h

theorem resolveAll_spec (here : Nat) (ss : List Nat) :
    ∀ (b b2 : CodeBuffer),
      List.Pairwise (fun s1 s2 => s1 + siteWidth b.mem s1 ≤ s2 ∨
        s2 + siteWidth b.mem s2 ≤ s1) ss →
      resolveAll b here ss = some b2 →
      b2.cursor = b.cursor ∧ b2.capacity = b.capacity ∧
      (∀ s ∈ ss, siteResolved b.mem b2.mem here s) ∧
      (∀ k, (∀ s ∈ ss, k < s ∨ s + siteWidth b.mem s ≤ k) →
        b2.mem k = b.mem k) := by
  induction ss with
  | nil =>
    intro b b2 hp h
    cases Option.some.inj h
    exact ⟨rfl, rfl, by simp, fun k _ => rfl⟩
  | cons s rest ih =>
    intro b b2 hp h
    obtain ⟨hsep, hp2⟩ := List.pairwise_cons.mp hp
    unfold resolveAll at h
    cases hrs : resolveSite b here s with
    | none =>
      rw [hrs] at h
      exact Option.noConfusion h
    | some b1 =>
      rw [hrs] at h
      obtain ⟨hres, hfr1, hc1, hcap1⟩ := resolveSite_spec b b1 here s hrs
      have hw2 : ∀ t, 2 ≤ siteWidth b.mem t := by
        intro t
        unfold siteWidth
        split_ifs <;> omega
      have wtrans : ∀ t ∈ rest, siteWidth b1.mem t = siteWidth b.mem t := by
        intro t ht
        unfold siteWidth
        rw [readWord16_congr b1.mem b.mem t ?_]
        intro j hj1 hj2
        refine hfr1 j ?_
        rcases hsep t ht with hle | hle
        · right
          omega
        · left
          have h2t := hw2 t
          omega
      have hp2' : List.Pairwise (fun s1 s2 => s1 + siteWidth b1.mem s1 ≤ s2 ∨
          s2 + siteWidth b1.mem s2 ≤ s1) rest := by
        refine List.Pairwise.imp_of_mem (fun ha hb hr => ?_) hp2
        rw [wtrans _ ha, wtrans _ hb]
        exact hr
      obtain ⟨hc, hcap, hsites, hframe⟩ := ih b1 b2 hp2' h
      refine ⟨hc.trans hc1, hcap.trans hcap1, ?_, ?_⟩
      · intro t ht
        rcases List.mem_cons.mp ht with rfl | ht2
        · refine siteResolved_congr b.mem b.mem b1.mem b2.mem here t
            (fun k _ _ => rfl) ?_ hres
          intro k hk1 hk2
          refine hframe k (fun s2 hs2 => ?_)
          rw [wtrans s2 hs2]
          rcases hsep s2 hs2 with hle | hle
          · left
            omega
          · right
            omega
        · refine siteResolved_congr b1.mem b.mem b2.mem b2.mem here t ?_
            (fun k _ _ => rfl) (hsites t ht2)
          intro k hk1 hk2
          rw [wtrans t ht2] at hk2
          refine (hfr1 k ?_).symm
          rcases hsep t ht2 with hle | hle
          · right
            omega
          · left
            have h2t := hw2 t
            omega
      · intro k hk
        have h1 := hfr1 k (hk s (List.mem_cons_self s rest))
        have h2 := hframe k (fun s2 hs2 => by
          rw [wtrans s2 hs2]
          exact hk s2 (List.mem_cons_of_mem s hs2))
        exact h2.trans h1

/-- C2: after `Bind(L)` returns, every pending site of `L` holds an
instruction whose immediate field encodes the displacement from the site to
the bind point, with all bits outside the immediate field unchanged; the
pending set is empty and `L` is bound at the cursor offset current at the
time of the call.  (The `Pairwise` hypothesis states the data-model
invariant for reachable pending sets: each site is the start offset of a
distinct emitted instruction, so the instruction intervals — 2 bytes for a
compressed site, 4 for a 32-bit one, as recognized from the site's bytes —
do not overlap.  Adjacent compressed sites 2 bytes apart are included.) -/
theorem c2_bind_patches_all_sites (b : CodeBuffer) (l : Label)
    (b2 : CodeBuffer) (l2 : Label)
    (hsep : List.Pairwise (fun s1 s2 => s1 + siteWidth b.mem s1 ≤ s2 ∨
      s2 + siteWidth b.mem s2 ≤ s1) l.unresolvedOffsets)
    (hbind : bindLabel b l = some (b2, l2)) :
    l2.location = some b.cursor ∧ l2.unresolvedOffsets = [] ∧
    b2.cursor = b.cursor ∧
    (∀ s ∈ l.unresolvedOffsets, siteResolved b.mem b2.mem b.cursor s) ∧
    (∀ k, (∀ s ∈ l.unresolvedOffsets, k < s ∨ s + siteWidth b.mem s ≤ k) →
      b2.mem k = b.mem k) := by
  unfold bindLabel at hbind
  cases hloc : l.location with
  | some loc =>
    rw [hloc] at hbind
    exact Option.noConfusion hbind
  | none =>
    rw [hloc] at hbind
    cases hra : resolveAll b b.cursor l.unresolvedOffsets with
    | none =>
      rw [hra] at hbind
      exact Option.noConfusion hbind
    | some b3 =>
      rw [hra] at hbind
      have hpair := Option.some.inj hbind
      have hb : b3 = b2 := congrArg Prod.fst hpair
      have hl : (⟨some b.cursor, []⟩ : Label) = l2 := congrArg Prod.snd hpair
      subst hb
      subst hl
      obtain ⟨hc, hcap, hsites, hframe⟩ :=
        resolveAll_spec b.cursor l.unresolvedOffsets b b3 hsep hra
      exact ⟨rfl, rfl, hc, hsites, hframe⟩

theorem c2_witness :
    List.Pairwise (fun s1 s2 => s1 + siteWidth cjFixBuf.mem s1 ≤ s2 ∨
      s2 + siteWidth cjFixBuf.mem s2 ≤ s1) cjFixLabel.unresolvedOffsets ∧
    cjBoundLabel.location = some cjFixBuf.cursor ∧
    cjBoundLabel.unresolvedOffsets = [] ∧
    cjBoundBuf.cursor = cjFixBuf.cursor ∧
    siteResolved cjFixBuf.mem cjBoundBuf.mem cjFixBuf.cursor 0 ∧
    siteResolved cjFixBuf.mem cjBoundBuf.mem cjFixBuf.cursor 2 := by
  have hsep : List.Pairwise (fun s1 s2 => s1 + siteWidth cjFixBuf.mem s1 ≤ s2 ∨
      s2 + siteWidth cjFixBuf.mem s2 ≤ s1) cjFixLabel.unresolvedOffsets := by
    decide
  have h := c2_bind_patches_all_sites cjFixBuf cjFixLabel cjBoundBuf
    cjBoundLabel hsep rfl
  exact ⟨hsep, h.1, h.2.1, h.2.2.1, h.2.2.2.1 0 (by decide),
    h.2.2.2.1 2 (by decide)⟩

/-- C1: forward-branch fixup scenario.  From a fresh assembler over an empty
64-byte buffer, `BEQ x1, x2, L` with `L` unbound writes exactly 4 bytes whose
B-type immediate field encodes zero and records the site; after two `NOP`s
(8 more bytes), `Bind(L)` rewrites the first word so that its B-type
immediate encodes +12, and the first 4 bytes equal the canonical
little-endian encoding of `BEQ x1, x2, 12`. -/
theorem c1_forward_branch_fixup :
    (fwdStep1.map fun p =>
      (p.1.cursor, extractBImm (readWord32 p.1.mem 0), p.2.location,
        p.2.unresolvedOffsets)) = some (4, 0, none, [0]) ∧
    (fwdStep3.map fun p => p.1.cursor) = some 12 ∧
    (fwdFinal.map fun p => (p.1.mem 0, p.1.mem 1, p.1.mem 2, p.1.mem 3)) =
      some (0x63, 0x86, 0x20, 0x00) ∧
    (fwdFinal.map fun p =>
      (extractBImm (readWord32 p.1.mem 0), p.2.location)) =
      some (12, some 12) ∧
    (fwdFinal.map fun p => readWord32 p.1.mem 0) =
      some (encodeBType 12 x2.val x1.val 0 0x63) := by
  exact ⟨by decide, by decide, by decide, by decide, by decide⟩

/-- C3: every pseudo-instruction of the spec's canonical table emits exactly
the bytes of its base-instruction expansion with the fixed canonical
operands — all 21 rows: `NOP = ADDI x0,x0,0`, `MV = ADDI rd,rs,0`,
`NEG = SUB rd,x0,rs`, `NOT = XORI rd,rs,-1`, `SEQZ = SLTIU rd,rs,1`,
`SNEZ = SLTU rd,x0,rs`, `SLTZ = SLT rd,rs,x0`, `SGTZ = SLT rd,x0,rs`,
`RET = JALR x0,0,x1`, `JR = JALR x0,0,rs`, `JALR rs = JALR x1,0,rs`,
`J = JAL x0`, `JAL = JAL x1`, `BEQZ/BGEZ` fix `x0`, `BGT/BLE` swap the
operands of `BLT/BGE`, the F sign-injection pseudos, and
`PAUSE = FENCE fm=0, pred=W, succ=0`. -/
theorem c3_pseudo_expansions :
    (∀ b, NOP b = ADDI b x0 x0 0) ∧
    (∀ b rd rs, MV b rd rs = ADDI b rd rs 0) ∧
    (∀ b rd rs, NEG b rd rs = SUB b rd x0 rs) ∧
    (∀ b rd rs, NOT b rd rs = XORI b rd rs 0xFFFFFFFF) ∧
    (∀ b rd rs, SEQZ b rd rs = SLTIU b rd rs 1) ∧
    (∀ b rd rs, SNEZ b rd rs = SLTU b rd x0 rs) ∧
    (∀ b rd rs, SLTZ b rd rs = SLT b rd rs x0) ∧
    (∀ b rd rs, SGTZ b rd rs = SLT b rd x0 rs) ∧
    (∀ b, RET b = JALR b x0 0 x1) ∧
    (∀ b rs, JR b rs = JALR b x0 0 rs) ∧
    (∀ b rs, JALRone b rs = JALR b x1 0 rs) ∧
    (∀ b d, Ji b d = JALi b x0 d) ∧
    (∀ b d, JALone b d = JALi b x1 d) ∧
    (∀ b rs d, BEQZi b rs d = BEQi b rs x0 d) ∧
    (∀ b rs d, BGEZi b rs d = BGEi b rs x0 d) ∧
    (∀ b rs rt d, BGTi b rs rt d = BLTi b rt rs d) ∧
    (∀ b rs rt d, BLEi b rs rt d = BGEi b rt rs d) ∧
    (∀ b rd rs, FMV_S b rd rs = FSGNJ_S b rd rs rs) ∧
    (∀ b rd rs, FABS_S b rd rs = FSGNJX_S b rd rs rs) ∧
    (∀ b rd rs, FNEG_S b rd rs = FSGNJN_S b rd rs rs) ∧
    (∀ b, PAUSE b = emitFENCE b 0 FenceOrder.W 0 0 0 0 0x0F) := by
  and_intros <;> intros <;> rfl

theorem atomicPackFields (f5 v rs2 rs1 f3 rd e : Nat)
    (hf5 : f5 < 32) (hv : v < 4) (hrs2 : rs2 < 32) (hrs1 : rs1 < 32)
    (hf3 : f3 < 8) (hrd : rd < 32) (he : e < 128) :
    (f5 * 0x8000000 + v * 0x2000000 + rs2 * 0x100000 + rs1 * 0x8000 + f3 * 0x1000 + rd * 0x80 + e) / 0x4000000 % 2 = v / 2 ∧
    (f5 * 0x8000000 + v * 0x2000000 + rs2 * 0x100000 + rs1 * 0x8000 + f3 * 0x1000 + rd * 0x80 + e) / 0x2000000 % 2 = v % 2 := by
  constructor <;> omega

/-- C4: emitting `LR.W(o, x31, x15)` into a fresh 4-byte buffer produces,
for each ordering `o`, the 32-bit little-endian words `0x1007AFAF` (None),
`0x1407AFAF` (AQ), `0x1207AFAF` (RL), `0x1607AFAF` (AQRL); the aq flag
occupies bit 26 and the rl flag bit 25 of the atomic R-type layout, with
`None = 0`, `RL = 1`, `AQ = 2`, `AQRL = 3`. -/
theorem c4_lr_w_orderings :
    ((LR_W freshBuf4 .none x31 x15).map fun b => readWord32 b.mem 0) =
      some 0x1007AFAF ∧
    ((LR_W freshBuf4 .aq x31 x15).map fun b => readWord32 b.mem 0) =
      some 0x1407AFAF ∧
    ((LR_W freshBuf4 .rl x31 x15).map fun b => readWord32 b.mem 0) =
      some 0x1207AFAF ∧
    ((LR_W freshBuf4 .aqrl x31 x15).map fun b => readWord32 b.mem 0) =
      some 0x1607AFAF ∧
    (∀ (ordering : MemOrdering) (f5 rs2 rs1 f3 rd op : Nat),
      encodeAtomic f5 ordering rs2 rs1 f3 rd op / 0x4000000 % 2 =
        ordering.val / 2 ∧
      encodeAtomic f5 ordering rs2 rs1 f3 rd op / 0x2000000 % 2 =
        ordering.val % 2) ∧
    MemOrdering.none.val = 0 ∧ MemOrdering.rl.val = 1 ∧
    MemOrdering.aq.val = 2 ∧ MemOrdering.aqrl.val = 3 := by
  refine ⟨by decide, by decide, by decide, by decide, ?_, rfl, rfl, rfl, rfl⟩
  intro ordering f5 rs2 rs1 f3 rd op
  unfold encodeAtomic
  exact atomicPackFields (f5 % 32) ordering.val (rs2 % 32) (rs1 % 32) (f3 % 8)
    (rd % 32) (op % 0x80) (by omega) (by cases ordering <;> decide) (by omega)
    (by omega) (by omega) (by omega) (by omega)

theorem iPackFields (i r f3 rd e : Nat)
    (hi : i < 0x1000) (hr : r < 32) (hf3 : f3 < 8) (hrd : rd < 32)
    (he : e < 128) :
    (i * 0x100000 + r * 0x8000 + f3 * 0x1000 + rd * 0x80 + e) / 0x100000 = i ∧
    (i * 0x100000 + r * 0x8000 + f3 * 0x1000 + rd * 0x80 + e) / 0x8000 % 32 = r := by
  constructor <;> omega

theorem encodeIType_csr_slot (imm rs1 f3 rd op : Nat) :
    encodeIType imm rs1 f3 rd op / 0x100000 = imm % 0x1000 ∧
    fieldRs1 (encodeIType imm rs1 f3 rd op) = rs1 % 32 := by
  unfold encodeIType fieldRs1
  exact iPackFields (imm % 0x1000) (rs1 % 32) (f3 % 8) (rd % 32) (op % 0x80)
    (by omega) (by omega) (by omega) (by omega) (by omega)

/-- C5: every CSR instruction packs the 12-bit CSR address into the I-type
immediate slot (bits 31:20), the `CSRR*I` variants place the 5-bit
zero-extended immediate in the rs1 slot (bits 19:15), and the five concrete
emissions produce the words demanded by the spec and the test suite. -/
theorem c5_csr_encodings :
    (∀ rd csr rs, csrrwWord rd csr rs / 0x100000 = csr % 0x1000) ∧
    (∀ rd csr rs, csrrsWord rd csr rs / 0x100000 = csr % 0x1000) ∧
    (∀ rd csr rs, csrrcWord rd csr rs / 0x100000 = csr % 0x1000) ∧
    (∀ rd csr imm, csrrwiWord rd csr imm / 0x100000 = csr % 0x1000 ∧
      fieldRs1 (csrrwiWord rd csr imm) = imm % 32) ∧
    (∀ rd csr imm, csrrsiWord rd csr imm / 0x100000 = csr % 0x1000 ∧
      fieldRs1 (csrrsiWord rd csr imm) = imm % 32) ∧
    (∀ rd csr imm, csrrciWord rd csr imm / 0x100000 = csr % 0x1000 ∧
      fieldRs1 (csrrciWord rd csr imm) = imm % 32) ∧
    ((CSRRC freshBuf4 x31 CSR.Cycle x15).map fun b => readWord32 b.mem 0) =
      some 0xC007BFF3 ∧
    ((CSRRCI freshBuf4 x31 CSR.FFlags 0x1F).map fun b => readWord32 b.mem 0) =
      some 0x001FFFF3 ∧
    ((CSRRSI freshBuf4 x31 CSR.FRM 0x7).map fun b => readWord32 b.mem 0) =
      some 0x0023EFF3 ∧
    ((CSRRW freshBuf4 x31 CSR.FCSR x15).map fun b => readWord32 b.mem 0) =
      some 0x00379FF3 ∧
    ((CSRRWI freshBuf4 x31 CSR.FRM 0x7).map fun b => readWord32 b.mem 0) =
      some 0x0023DFF3 := by
  refine ⟨?_, ?_, ?_, ?_, ?_, ?_, by decide, by decide, by decide, by decide,
    by decide⟩
  · intro rd csr rs
    exact (encodeIType_csr_slot csr rs.val 1 rd.val 0x73).1
  · intro rd csr rs
    exact (encodeIType_csr_slot csr rs.val 2 rd.val 0x73).1
  · intro rd csr rs
    exact (encodeIType_csr_slot csr rs.val 3 rd.val 0x73).1
  · intro rd csr imm
    refine ⟨(encodeIType_csr_slot csr (imm % 32) 5 rd.val 0x73).1, ?_⟩
    have h := (encodeIType_csr_slot csr (imm % 32) 5 rd.val 0x73).2
    unfold csrrwiWord
    rw [h]
    omega
  · intro rd csr imm
    refine ⟨(encodeIType_csr_slot csr (imm % 32) 6 rd.val 0x73).1, ?_⟩
    have h := (encodeIType_csr_slot csr (imm % 32) 6 rd.val 0x73).2
    unfold csrrsiWord
    rw [h]
    omega
  · intro rd csr imm
    refine ⟨(encodeIType_csr_slot csr (imm % 32) 7 rd.val 0x73).1, ?_⟩
    have h := (encodeIType_csr_slot csr (imm % 32) 7 rd.val 0x73).2
    unfold csrrciWord
    rw [h]
    omega

/-- C9, counterexample: the CSR pseudo-instruction family declared in
`assembler.hpp` contains no `CSRW`; only the misspelled `CSWR` is exposed,
so the claim that both operations are exposed is false. -/
theorem c9_counterexample : ¬ ("CSRW" ∈ csrPseudoNames) := by
  decide

/-- C9, amended: the CSR pseudo family exposes `CSWR` (an apparent
misspelling of `CSRW`; no `CSRW` is declared), and `CSWR(csr, rs)` emits
exactly the bytes of `CSRRW(x0, csr, rs)`. -/
theorem c9_cswr_write_pseudo :
    ("CSWR" ∈ csrPseudoNames) ∧
    (∀ b csr rs, CSWR b csr rs = CSRRW b x0 csr rs) :=
  ⟨by decide, fun _ _ _ => rfl⟩

/-- C10: every branch/jump mnemonic that takes a label also has an
integer-displacement overload, and when the label is already bound at
`cursor + d` the label overload emits exactly the bytes of the integer
overload at displacement `d`, returning the label untouched; the integer
overload never takes or modifies any label. -/
theorem c10_label_equals_displacement :
    (∀ (b : CodeBuffer) (funct3 : Nat) (rs1 rs2 : GPR) (l : Label)
      (loc : Nat) (d : Int), l.location = some loc →
      (loc : Int) - (b.cursor : Int) = d →
      branchLbl b funct3 rs1 rs2 l =
        (branchImm b funct3 rs1 rs2 d).map fun b2 => (b2, l)) ∧
    (∀ (b : CodeBuffer) (rd : GPR) (l : Label) (loc : Nat) (d : Int),
      l.location = some loc → (loc : Int) - (b.cursor : Int) = d →
      JALl b rd l = (JALi b rd d).map fun b2 => (b2, l)) ∧
    (∀ (b : CodeBuffer) (l : Label) (loc : Nat) (d : Int),
      l.location = some loc → (loc : Int) - (b.cursor : Int) = d →
      C_Jl b l = (C_Ji b d).map fun b2 => (b2, l)) := by
  refine ⟨?_, ?_, ?_⟩
  · intro b funct3 rs1 rs2 l loc d hloc hd
    subst hd
    unfold branchLbl linkAndGetOffset
    rw [hloc]
  · intro b rd l loc d hloc hd
    subst hd
    unfold JALl linkAndGetOffset
    rw [hloc]
  · intro b l loc d hloc hd
    subst hd
    unfold C_Jl linkAndGetOffset
    rw [hloc]

/-- C7: for branches and jumps with an emit-time displacement, the encoder
returns failure (emitting nothing) for any displacement outside the signed
range — ±4 KiB for B-type, ±1 MiB for J-type, ±2 KiB for compressed CJ — and
always accepts an in-range displacement with bit 0 zero, given capacity.
(This source revision declares no CB-format branch mnemonic, so the CB
clause of the claim has no instance.) -/
theorem c7_range_checks :
    (∀ (b : CodeBuffer) (funct3 : Nat) (rs1 rs2 : GPR) (d : Int),
      (d < -4096 ∨ 4096 ≤ d) → branchImm b funct3 rs1 rs2 d = none) ∧
    (∀ (b : CodeBuffer) (funct3 : Nat) (rs1 rs2 : GPR) (d : Int),
      -4096 ≤ d → d < 4096 → d % 2 = 0 → b.cursor + 4 ≤ b.capacity →
      (branchImm b funct3 rs1 rs2 d).isSome = true) ∧
    (∀ (b : CodeBuffer) (rd : GPR) (d : Int),
      (d < -1048576 ∨ 1048576 ≤ d) → JALi b rd d = none) ∧
    (∀ (b : CodeBuffer) (rd : GPR) (d : Int),
      -1048576 ≤ d → d < 1048576 → d % 2 = 0 → b.cursor + 4 ≤ b.capacity →
      (JALi b rd d).isSome = true) ∧
    (∀ (b : CodeBuffer) (d : Int),
      (d < -2048 ∨ 2048 ≤ d) → C_Ji b d = none) ∧
    (∀ (b : CodeBuffer) (d : Int),
      -2048 ≤ d → d < 2048 → d % 2 = 0 → b.cursor + 2 ≤ b.capacity →
      (C_Ji b d).isSome = true) := by
  refine ⟨?_, ?_, ?_, ?_, ?_, ?_⟩
  · intro b funct3 rs1 rs2 d hd
    have hv : ¬ (isValidBDisp d = true) := by
      simp only [isValidBDisp, decide_eq_true_eq]
      omega
    unfold branchImm emitBType
    rw [if_neg hv]
  · intro b funct3 rs1 rs2 d h1 h2 h3 hcap
    have hv : isValidBDisp d = true := by
      simp only [isValidBDisp, decide_eq_true_eq]
      omega
    unfold branchImm emitBType emit32
    rw [if_pos hv, if_pos hcap]
    rfl
  · intro b rd d hd
    have hv : ¬ (isValidJDisp d = true) := by
      simp only [isValidJDisp, decide_eq_true_eq]
      omega
    unfold JALi emitJType
    rw [if_neg hv]
  · intro b rd d h1 h2 h3 hcap
    have hv : isValidJDisp d = true := by
      simp only [isValidJDisp, decide_eq_true_eq]
      omega
    unfold JALi emitJType emit32
    rw [if_pos hv, if_pos hcap]
    rfl
  · intro b d hd
    have hv : ¬ (isValidCJDisp d = true) := by
      simp only [isValidCJDisp, decide_eq_true_eq]
      omega
    unfold C_Ji emitCompressedJump
    rw [if_neg hv]
  · intro b d h1 h2 h3 hcap
    have hv : isValidCJDisp d = true := by
      simp only [isValidCJDisp, decide_eq_true_eq]
      omega
    unfold C_Ji emitCompressedJump emit16
    rw [if_pos hv, if_pos hcap]
    rfl

theorem emit32_bytes_agree (s t : CodeBuffer) (w : Nat)
    (hcur : s.cursor = t.cursor) (hcap : s.capacity = t.capacity)
    (k : Nat) (hk : k < 4) :
    ((emit32 s w).map fun b => b.mem (s.cursor + k)) =
      ((emit32 t w).map fun b => b.mem (t.cursor + k)) := by
  unfold emit32
  rw [hcur, hcap]
  split_ifs with h
  · show some (writeWord32 s.mem t.cursor w (t.cursor + k)) =
      some (writeWord32 t.mem t.cursor w (t.cursor + k))
    exact congrArg some (writeWord32_inside _ _ _ _ _ (by omega) (by omega))
  · rfl

theorem emit16_bytes_agree (s t : CodeBuffer) (w : Nat)
    (hcur : s.cursor = t.cursor) (hcap : s.capacity = t.capacity)
    (k : Nat) (hk : k < 2) :
    ((emit16 s w).map fun b => b.mem (s.cursor + k)) =
      ((emit16 t w).map fun b => b.mem (t.cursor + k)) := by
  unfold emit16
  rw [hcur, hcap]
  split_ifs with h
  · show some (writeWord16 s.mem t.cursor w (t.cursor + k)) =
      some (writeWord16 t.mem t.cursor w (t.cursor + k))
    exact congrArg some (writeWord16_inside _ _ _ _ _ (by omega) (by omega))
  · rfl

/-- C6: emission is deterministic and history-independent.  For every
fixed-operand mnemonic, the bytes an emit writes at the cursor depend only
on the operands (never on the buffer's prior contents), and an emit after
`RewindCursor(j)` writes at `j` exactly the bytes that an emit from any
state with cursor `j` and the same capacity would write. -/
theorem c6_deterministic_emission :
    (∀ (i : Instr) (s t : CodeBuffer), s.cursor = t.cursor →
      s.capacity = t.capacity → ∀ k, k < i.width →
      ((i.emit s).map fun b => b.mem (s.cursor + k)) =
        ((i.emit t).map fun b => b.mem (t.cursor + k))) ∧
    (∀ (i : Instr) (s s1 u : CodeBuffer) (j : Nat),
      rewindCursor s j = some s1 → u.cursor = j → u.capacity = s.capacity →
      ∀ k, k < i.width →
      ((i.emit s1).map fun b => b.mem (j + k)) =
        ((i.emit u).map fun b => b.mem (j + k))) := by
  have main : ∀ (i : Instr) (s t : CodeBuffer), s.cursor = t.cursor →
      s.capacity = t.capacity → ∀ k, k < i.width →
      ((i.emit s).map fun b => b.mem (s.cursor + k)) =
        ((i.emit t).map fun b => b.mem (t.cursor + k)) := by
    intro i s t hcur hcap k hk
    cases i <;>
      simp only [Instr.emit, Instr.width, ADD, SUB, SLT, SLTU, ADDI, XORI,
        SLTIU, JALR, JALi, branchImm, LR_W, CSRRW, FSGNJ_S, NOP, C_ADDI,
        C_NOP, C_Ji, C_JALi, emitRType, emitIType, emitBType, emitJType,
        emitCompressedJump] at hk ⊢ <;>
      first
        | exact emit32_bytes_agree s t _ hcur hcap k (by omega)
        | exact emit16_bytes_agree s t _ hcur hcap k (by omega)
        | (split_ifs <;>
            first
              | exact emit32_bytes_agree s t _ hcur hcap k (by omega)
              | exact emit16_bytes_agree s t _ hcur hcap k (by omega)
              | rfl)
  refine ⟨main, ?_⟩
  intro i s s1 u j hrw hu hcapu k hk
  unfold rewindCursor at hrw
  split_ifs at hrw with hle
  cases Option.some.inj hrw
  have h := main i ⟨s.mem, j, s.capacity⟩ u hu.symm hcapu.symm k hk
  rw [hu] at h
  exact h

theorem instr_emit_cursor (i : Instr) (b b2 : CodeBuffer)
    (h : i.emit b = some b2) :
    b2.cursor = b.cursor + i.width ∧ b2.cursor ≤ b2.capacity ∧
    b2.capacity = b.capacity := by
  cases i <;>
    simp only [Instr.emit, Instr.width, ADD, SUB, SLT, SLTU, ADDI, XORI,
      SLTIU, JALR, JALi, branchImm, LR_W, CSRRW, FSGNJ_S, NOP, C_ADDI, C_NOP,
      C_Ji, C_JALi, emitRType, emitIType, emitBType, emitJType,
      emitCompressedJump, emit32, emit16] at h <;>
    split_ifs at h with h1 h2 <;>
    first
      | exact Option.noConfusion h
      | (cases Option.some.inj h
         refine ⟨rfl, ?_, rfl⟩
         show b.cursor + _ ≤ b.capacity
         omega)

theorem resolveAll_cursor (here : Nat) (ss : List Nat) :
    ∀ b b2, resolveAll b here ss = some b2 →
      b2.cursor = b.cursor ∧ b2.capacity = b.capacity := by
  induction ss with
  | nil =>
    intro b b2 h
    cases Option.some.inj h
    exact ⟨rfl, rfl⟩
  | cons s rest ih =>
    intro b b2 h
    unfold resolveAll at h
    cases hrs : resolveSite b here s with
    | none =>
      rw [hrs] at h
      exact Option.noConfusion h
    | some b1 =>
      rw [hrs] at h
      obtain ⟨h1, h2⟩ := ih b1 b2 h
      obtain ⟨_, _, hc, hcap⟩ := resolveSite_spec b b1 here s hrs
      exact ⟨h1.trans hc, h2.trans hcap⟩

theorem bindLabel_cursor (b : CodeBuffer) (l : Label) (p : CodeBuffer × Label)
    (h : bindLabel b l = some p) :
    p.1.cursor = b.cursor ∧ p.1.capacity = b.capacity := by
  unfold bindLabel at h
  cases hloc : l.location with
  | some loc =>
    rw [hloc] at h
    exact Option.noConfusion h
  | none =>
    rw [hloc] at h
    cases hra : resolveAll b b.cursor l.unresolvedOffsets with
    | none =>
      rw [hra] at h
      exact Option.noConfusion h
    | some b3 =>
      rw [hra] at h
      cases Option.some.inj h
      exact resolveAll_cursor b.cursor l.unresolvedOffsets b b3 hra

theorem op_apply_inv (op : Op) (b b2 : CodeBuffer) (hb : b.cursor ≤ b.capacity)
    (h : op.apply b = some b2) :
    b2.cursor ≤ b2.capacity ∧ b2.capacity = b.capacity := by
  cases op with
  | instr i =>
    obtain ⟨h1, h2, h3⟩ := instr_emit_cursor i b b2 h
    exact ⟨h2, h3⟩
  | over32 off w =>
    simp only [Op.apply] at h
    split_ifs at h
    cases Option.some.inj h
    exact ⟨hb, rfl⟩
  | over16 off w =>
    simp only [Op.apply] at h
    split_ifs at h
    cases Option.some.inj h
    exact ⟨hb, rfl⟩
  | rewind k =>
    simp only [Op.apply] at h
    unfold rewindCursor at h
    split_ifs at h with h1
    cases Option.some.inj h
    exact ⟨show k ≤ b.capacity by omega, rfl⟩
  | bindL l =>
    simp only [Op.apply] at h
    cases hbl : bindLabel b l with
    | none =>
      rw [hbl] at h
      exact Option.noConfusion h
    | some p =>
      rw [hbl] at h
      cases Option.some.inj h
      obtain ⟨h1, h2⟩ := bindLabel_cursor b l p hbl
      exact ⟨show p.1.cursor ≤ p.1.capacity by omega, h2⟩
  | branchL f3 rs1 rs2 l =>
    simp only [Op.apply, branchLbl] at h
    cases hbi : branchImm b f3 rs1 rs2 (linkAndGetOffset b l).1 with
    | none =>
      rw [hbi] at h
      exact Option.noConfusion h
    | some b3 =>
      rw [hbi] at h
      cases Option.some.inj h
      obtain ⟨h1, h2, h3⟩ :=
        instr_emit_cursor (.branch f3 rs1 rs2 (linkAndGetOffset b l).1) b b3 hbi
      exact ⟨h2, h3⟩
  | jalL rd l =>
    simp only [Op.apply, JALl] at h
    cases hbi : JALi b rd (linkAndGetOffset b l).1 with
    | none =>
      rw [hbi] at h
      exact Option.noConfusion h
    | some b3 =>
      rw [hbi] at h
      cases Option.some.inj h
      obtain ⟨h1, h2, h3⟩ :=
        instr_emit_cursor (.jal rd (linkAndGetOffset b l).1) b b3 hbi
      exact ⟨h2, h3⟩

theorem run_inv (ops : List Op) :
    ∀ b b2, run ops b = some b2 → b.cursor ≤ b.capacity →
      b2.cursor ≤ b2.capacity ∧ b2.capacity = b.capacity := by
  induction ops with
  | nil =>
    intro b b2 h hb
    cases Option.some.inj h
    exact ⟨hb, rfl⟩
  | cons op rest ih =>
    intro b b2 h hb
    unfold run at h
    cases hop : op.apply b with
    | none =>
      rw [hop] at h
      exact Option.noConfusion h
    | some b1 =>
      rw [hop] at h
      obtain ⟨h1, h2⟩ := op_apply_inv op b b1 hb hop
      obtain ⟨h3, h4⟩ := ih b1 b2 h h1
      exact ⟨h3, h4.trans h2⟩

/-- C8: buffer-cursor invariant.  Along every operation sequence the cursor
stays within `[0, capacity]`; every successful emit advances the cursor by
exactly the instruction width — 2 bytes for every compressed (`C_*`)
mnemonic, 4 for every base mnemonic — and `OverwriteAt` and `Bind` never
move the cursor. -/
theorem c8_cursor_invariant :
    (∀ (ops : List Op) (b b2 : CodeBuffer), run ops b = some b2 →
      b.cursor ≤ b.capacity → b2.cursor ≤ b2.capacity ∧
      b2.capacity = b.capacity) ∧
    (∀ (i : Instr) (b b2 : CodeBuffer), i.emit b = some b2 →
      b2.cursor = b.cursor + i.width ∧ b2.cursor ≤ b2.capacity) ∧
    (∀ i : Instr, i.width = if i.isCompressed then 2 else 4) ∧
    (∀ (b : CodeBuffer) (off w : Nat),
      (overwriteAt32 b off w).cursor = b.cursor) ∧
    (∀ (b : CodeBuffer) (off w : Nat),
      (overwriteAt16 b off w).cursor = b.cursor) ∧
    (∀ (b : CodeBuffer) (l : Label) (p : CodeBuffer × Label),
      bindLabel b l = some p → p.1.cursor = b.cursor) :=
  ⟨fun ops b b2 h hb => run_inv ops b b2 h hb,
    fun i b b2 h =>
      ⟨(instr_emit_cursor i b b2 h).1, (instr_emit_cursor i b b2 h).2.1⟩,
    fun i => by cases i <;> rfl,
    fun _ _ _ => rfl, fun _ _ _ => rfl,
    fun b l p h => (bindLabel_cursor b l p h).1⟩

theorem c6_witness :
    altBuf8.cursor = altBuf8b.cursor ∧ altBuf8.capacity = altBuf8b.capacity ∧
    0 < Instr.nop.width ∧
    ((Instr.nop.emit altBuf8).map fun b => b.mem (altBuf8.cursor + 0)) =
      ((Instr.nop.emit altBuf8b).map fun b => b.mem (altBuf8b.cursor + 0)) :=
  ⟨rfl, rfl, by decide,
    c6_deterministic_emission.1 Instr.nop altBuf8 altBuf8b rfl rfl 0
      (by decide)⟩

theorem c7_witness :
    branchImm freshBuf64 0 x1 x2 5000 = none ∧
    (branchImm freshBuf64 0 x1 x2 12).isSome = true ∧
    C_Ji freshBuf64 4000 = none :=
  ⟨c7_range_checks.1 freshBuf64 0 x1 x2 5000 (Or.inr (by decide)),
    c7_range_checks.2.1 freshBuf64 0 x1 x2 12 (by decide) (by decide)
      (by decide) (by decide),
    c7_range_checks.2.2.2.2.1 freshBuf64 4000 (Or.inr (by decide))⟩

theorem c8_witness :
    altBuf8.cursor ≤ altBuf8.capacity ∧ run c8ops altBuf8 = some c8res ∧
    c8res.cursor ≤ c8res.capacity ∧ c8res.capacity = altBuf8.capacity := by
  have h := c8_cursor_invariant.1 c8ops altBuf8 c8res rfl (by decide)
  exact ⟨by decide, rfl, h.1, h.2⟩

theorem c10_witness :
    boundAt12.location = some 12 ∧
    (12 : Int) - (freshBuf64.cursor : Int) = 12 ∧
    branchLbl freshBuf64 0 x1 x2 boundAt12 =
      ((branchImm freshBuf64 0 x1 x2 12).map fun b2 => (b2, boundAt12)) :=
  ⟨rfl, by decide,
    c10_label_equals_displacement.1 freshBuf64 0 x1 x2 boundAt12 12 12 rfl
      (by decide)⟩

end Biscuit
